import Mathlib

/-!
Verification development for the `math-mcp-server-client` orchestrator.

The definitions below are a shallow embedding of the Python sources
`orchestrator.py` and `mcp_client.py`.  Python values that can flow through
the orchestrator's argument pipeline are modelled by `PyVal`; Python dicts
are modelled by association lists in insertion order; library calls
(`json.loads`, `re.sub`, `re.split`, `str` methods) are modelled by
executable Lean functions implementing the behaviour those calls have on
the flows exercised here.  External effects (the LLM, the MCP tool
processes) are parameters of the embedded functions.
-/

namespace MathMcp

/-! ## Python string primitives -/

/-- The characters Python's `str.strip()` (and `\s` in `re`) treat as
whitespace, restricted to ASCII, which is all the sources use. -/
def pyWsChars : List Char := [' ', '\t', '\n', '\r', '\x0b', '\x0c']

def pyIsSpace (c : Char) : Bool := pyWsChars.contains c

def pyStripList (cs : List Char) : List Char :=
  ((cs.dropWhile pyIsSpace).reverse.dropWhile pyIsSpace).reverse

/-- Python `str.strip()` with no argument. -/
def pyStrip (s : String) : String := String.mk (pyStripList s.toList)

/-- Python `str.lower()` (ASCII case folding suffices for the sources). -/
def pyLower (s : String) : String := String.mk (s.toList.map Char.toLower)

theorem dropWhile_length_le {α : Type} (p : α → Bool) (l : List α) :
    (l.dropWhile p).length ≤ l.length := by
  induction l with
  | nil => simp [List.dropWhile]
  | cons a t ih =>
    simp only [List.dropWhile]
    cases p a <;> simp <;> omega

def strInList (n : List Char) : List Char → Bool
  | [] => n.isEmpty
  | c :: rest => n.isPrefixOf (c :: rest) || strInList n rest

/-- Python's substring test `needle in hay`. -/
def strIn (needle hay : String) : Bool := strInList needle.toList hay.toList

def pyReplaceGo (n0 : Char) (ntail r : List Char) : Nat → List Char → List Char
  | 0, cs => cs
  | _ + 1, [] => []
  | fuel + 1, c :: rest =>
    if (n0 :: ntail).isPrefixOf (c :: rest) then
      r ++ pyReplaceGo n0 ntail r fuel (rest.drop ntail.length)
    else
      c :: pyReplaceGo n0 ntail r fuel rest

/-- Python `s.replace(needle, repl)` for a non-empty needle (all uses in
the sources have literal non-empty needles).  The fuel bound exceeds the
number of scan positions, so it never runs out. -/
def pyReplace (s needle repl : String) : String :=
  match needle.toList with
  | [] => s
  | n0 :: ntail =>
    String.mk (pyReplaceGo n0 ntail repl.toList (s.toList.length + 1) s.toList)

def splitNlGo (cur : List Char) : Nat → List Char → List (List Char)
  | 0, cs => [cs]
  | _ + 1, [] => [cur.reverse]
  | fuel + 1, c :: rest =>
    if c = '\n' then
      cur.reverse :: splitNlGo [] fuel (rest.dropWhile (fun x => x = '\n'))
    else
      splitNlGo (c :: cur) fuel rest

/-- Python `re.split(r"\n+", s)`: split on maximal runs of newlines. -/
def splitNlPlus (cs : List Char) : List (List Char) :=
  splitNlGo [] (cs.length + 1) cs

def reSubBraceGo : Nat → List Char → List Char
  | 0, cs => cs
  | _ + 1, [] => []
  | fuel + 1, c :: rest =>
    if c = '\x7d' then
      match rest.dropWhile pyIsSpace with
      | '\x7b' :: tail => '\x7d' :: '\n' :: '\x7b' :: reSubBraceGo fuel tail
      | _ => c :: reSubBraceGo fuel rest
    else
      c :: reSubBraceGo fuel rest

/-- Python `re.sub(r"}\s*{", "}\n{", s)`: a `}` followed by optional
whitespace and a `{` becomes `}`, newline, `{`. -/
def reSubBraceGap (s : String) : String :=
  String.mk (reSubBraceGo (s.toList.length + 1) s.toList)

/-- Python `str.find(c)` for a single character, as an `Option` index. -/
def firstIdxOf (c : Char) (cs : List Char) : Option Nat :=
  cs.findIdx? (fun x => x = c)

/-- Python `str.rfind(c)` for a single character, as an `Option` index. -/
def lastIdxOf (c : Char) (cs : List Char) : Option Nat :=
  match cs.reverse.findIdx? (fun x => x = c) with
  | some i => some (cs.length - 1 - i)
  | Option.none => Option.none

/-! ## Python values and dicts -/

/-- The Python values that flow through the orchestrator: JSON-decoded
data, tool arguments and argument hints. -/
inductive PyVal where
  | str : String → PyVal
  | int : Int → PyVal
  | float : Rat → PyVal
  | bool : Bool → PyVal
  | dict : List (String × PyVal) → PyVal
  | list : List PyVal → PyVal
  | none : PyVal

/-- Association-list model of a Python dict in insertion order. -/
abbrev PyDict := List (String × PyVal)

def pyLookup {α : Type} (l : List (String × α)) (k : String) : Option α :=
  match l with
  | [] => Option.none
  | (k', v) :: rest => if k' = k then some v else pyLookup rest k

/-- Python dict assignment `d[k] = v`: replace in place if the key exists,
else append. -/
def pyDictInsert {α : Type} (l : List (String × α)) (k : String) (v : α) :
    List (String × α) :=
  match l with
  | [] => [(k, v)]
  | (k', v') :: rest =>
    if k' = k then (k', v) :: rest else (k', v') :: pyDictInsert rest k v

/-- Python `d.pop(k, None)`. -/
def pyDictRemove {α : Type} (l : List (String × α)) (k : String) :
    List (String × α) :=
  match l with
  | [] => []
  | (k', v) :: rest =>
    if k' = k then rest else (k', v) :: pyDictRemove rest k

/-- Python `d.update(m)`. -/
def pyDictUpdateAll {α : Type} (l m : List (String × α)) : List (String × α) :=
  m.foldl (fun acc kv => pyDictInsert acc kv.1 kv.2) l

def hasKey {α : Type} (l : List (String × α)) (k : String) : Bool :=
  (pyLookup l k).isSome

/-! ## Python value conversions (`str`, `float`, `int`, `bool` lexicon) -/

def sq : String := String.singleton (Char.ofNat 39)

/-- Rendering used by Python `repr` for floats; only integral floats are
ever stringified on the modelled paths. -/
def pyFloatRepr (q : Rat) : String :=
  if q.den = 1 then toString q.num ++ ".0" else toString q.num ++ "/" ++ toString q.den

mutual

/-- Python `repr(v)` (used for elements of containers). -/
def pyReprVal : PyVal → String
  | PyVal.str s => sq ++ s ++ sq
  | PyVal.int n => toString n
  | PyVal.float q => pyFloatRepr q
  | PyVal.bool b => if b then "True" else "False"
  | PyVal.none => "None"
  | PyVal.list xs => "[" ++ pyReprList xs ++ "]"
  | PyVal.dict m => "\x7b" ++ pyReprDict m ++ "\x7d"

def pyReprList : List PyVal → String
  | [] => ""
  | [x] => pyReprVal x
  | x :: y :: rest => pyReprVal x ++ ", " ++ pyReprList (y :: rest)

def pyReprDict : List (String × PyVal) → String
  | [] => ""
  | [kv] => sq ++ kv.1 ++ sq ++ ": " ++ pyReprVal kv.2
  | kv :: kv2 :: rest => sq ++ kv.1 ++ sq ++ ": " ++ pyReprVal kv.2 ++ ", " ++ pyReprDict (kv2 :: rest)

end

/-- Python `str(v)`. -/
def pyStr : PyVal → String
  | PyVal.str s => s
  | v => pyReprVal v

def digitsToNat (ds : List Char) : Nat :=
  ds.foldl (fun acc c => acc * 10 + (c.toNat - 48)) 0

/-- Parse the numeral part of Python `float("...")`: optional sign, digits,
optional fraction.  Returns `Option.none` where Python raises `ValueError`. -/
def parseFloatStr (s : String) : Option Rat :=
  let cs := pyStripList s.toList
  let signed : Bool × List Char :=
    match cs with
    | '-' :: r => (true, r)
    | '+' :: r => (false, r)
    | _ => (false, cs)
  let ds := signed.2.takeWhile Char.isDigit
  let rest := signed.2.drop ds.length
  match rest with
  | [] =>
    if ds.isEmpty then Option.none
    else some ((if signed.1 then -1 else 1) * (digitsToNat ds : Rat))
  | '.' :: r2 =>
    let fs := r2.takeWhile Char.isDigit
    let r3 := r2.drop fs.length
    if (ds.isEmpty && fs.isEmpty) || !r3.isEmpty then Option.none
    else
      some ((if signed.1 then -1 else 1) *
        ((digitsToNat ds : Rat) + (digitsToNat fs : Rat) / ((10 : Rat) ^ fs.length)))
  | _ => Option.none

/-- Parse Python `int("...")`. -/
def parseIntStr (s : String) : Option Int :=
  let cs := pyStripList s.toList
  let signed : Bool × List Char :=
    match cs with
    | '-' :: r => (true, r)
    | '+' :: r => (false, r)
    | _ => (false, cs)
  if signed.2.isEmpty || !(signed.2.all Char.isDigit) then Option.none
  else some ((if signed.1 then -1 else 1) * (digitsToNat signed.2 : Int))

/-- Truncation toward zero, the behaviour of Python `int(float)`. -/
def ratTrunc (q : Rat) : Int := if 0 ≤ q then q.floor else q.ceil

/-- Python `float(v)`; `Option.none` models a raised exception. -/
def pyFloat : PyVal → Option Rat
  | PyVal.float q => some q
  | PyVal.int n => some (n : Rat)
  | PyVal.bool b => some (if b then 1 else 0)
  | PyVal.str s => parseFloatStr s
  | _ => Option.none

/-- Python `int(v)`; `Option.none` models a raised exception. -/
def pyInt : PyVal → Option Int
  | PyVal.int n => some n
  | PyVal.float q => some (ratTrunc q)
  | PyVal.bool b => some (if b then 1 else 0)
  | PyVal.str s => parseIntStr s
  | _ => Option.none

/-! ## JSON decoding (`json.loads`) -/

/-- JSON whitespace (`json.loads` skips exactly these). -/
def jsonWs (c : Char) : Bool := c = ' ' || c = '\t' || c = '\n' || c = '\r'

def skipWs (cs : List Char) : List Char := cs.dropWhile jsonWs

def jsonEscChar (c : Char) : Option Char :=
  if c = '"' then some '"'
  else if c = '\\' then some '\\'
  else if c = '/' then some '/'
  else if c = 'n' then some '\n'
  else if c = 't' then some '\t'
  else if c = 'r' then some '\r'
  else if c = 'b' then some (Char.ofNat 8)
  else if c = 'f' then some (Char.ofNat 12)
  else Option.none

/-- Parse the body of a JSON string after the opening quote. -/
def jpStringGo (acc : List Char) : Nat → List Char → Option (String × List Char)
  | 0, _ => Option.none
  | _ + 1, [] => Option.none
  | fuel + 1, c :: rest =>
    if c = '"' then some (String.mk acc.reverse, rest)
    else if c = '\\' then
      match rest with
      | [] => Option.none
      | e :: rest2 =>
        match jsonEscChar e with
        | some ce => jpStringGo (ce :: acc) fuel rest2
        | Option.none => Option.none
    else jpStringGo (c :: acc) fuel rest

/-- Parse a JSON number (integer or decimal fraction; the exponent form is
never produced on the modelled flows). -/
def jpNumber (cs : List Char) : Option (PyVal × List Char) :=
  let signed : Bool × List Char :=
    match cs with
    | '-' :: r => (true, r)
    | _ => (false, cs)
  let ds := signed.2.takeWhile Char.isDigit
  let rest := signed.2.drop ds.length
  if ds.isEmpty then Option.none
  else
    match rest with
    | '.' :: r2 =>
      let fs := r2.takeWhile Char.isDigit
      let r3 := r2.drop fs.length
      if fs.isEmpty then Option.none
      else
        some (PyVal.float ((if signed.1 then -1 else 1) *
          ((digitsToNat ds : Rat) + (digitsToNat fs : Rat) / ((10 : Rat) ^ fs.length))), r3)
    | _ =>
      some (PyVal.int ((if signed.1 then -1 else 1) * (digitsToNat ds : Int)), rest)

mutual

/-- Recursive-descent JSON value, fuel-bounded (the fuel exceeds any
possible nesting depth at the call site). -/
def jpVal : Nat → List Char → Option (PyVal × List Char)
  | 0, _ => Option.none
  | Nat.succ f, cs =>
    match skipWs cs with
    | [] => Option.none
    | c :: rest =>
      if c = '\x7b' then jpObj f rest
      else if c = '[' then jpArr f rest
      else if c = '"' then
        match jpStringGo [] (rest.length + 1) rest with
        | some (s, r) => some (PyVal.str s, r)
        | Option.none => Option.none
      else if c = 't' then
        if "rue".toList.isPrefixOf rest then some (PyVal.bool true, rest.drop 3)
        else Option.none
      else if c = 'f' then
        if "alse".toList.isPrefixOf rest then some (PyVal.bool false, rest.drop 4)
        else Option.none
      else if c = 'n' then
        if "ull".toList.isPrefixOf rest then some (PyVal.none, rest.drop 3)
        else Option.none
      else if c = '-' || c.isDigit then jpNumber (c :: rest)
      else Option.none

/-- Object members after the opening brace. -/
def jpObj : Nat → List Char → Option (PyVal × List Char)
  | 0, _ => Option.none
  | Nat.succ f, cs =>
    match skipWs cs with
    | '\x7d' :: rest => some (PyVal.dict [], rest)
    | _ => jpMembers f cs []

def jpMembers : Nat → List Char → List (String × PyVal) → Option (PyVal × List Char)
  | 0, _, _ => Option.none
  | Nat.succ f, cs, acc =>
    match skipWs cs with
    | '"' :: rest =>
      match jpStringGo [] (rest.length + 1) rest with
      | some (k, r1) =>
        match skipWs r1 with
        | ':' :: r2 =>
          match jpVal f r2 with
          | some (v, r3) =>
            match skipWs r3 with
            | ',' :: r4 => jpMembers f r4 (pyDictInsert acc k v)
            | '\x7d' :: r4 => some (PyVal.dict (pyDictInsert acc k v), r4)
            | _ => Option.none
          | Option.none => Option.none
        | _ => Option.none
      | Option.none => Option.none
    | _ => Option.none

/-- Array items after the opening bracket. -/
def jpArr : Nat → List Char → Option (PyVal × List Char)
  | 0, _ => Option.none
  | Nat.succ f, cs =>
    match skipWs cs with
    | ']' :: rest => some (PyVal.list [], rest)
    | _ => jpItems f cs []

def jpItems : Nat → List Char → List PyVal → Option (PyVal × List Char)
  | 0, _, _ => Option.none
  | Nat.succ f, cs, acc =>
    match jpVal f cs with
    | some (v, r1) =>
      match skipWs r1 with
      | ',' :: r2 => jpItems f r2 (acc ++ [v])
      | ']' :: r2 => some (PyVal.list (acc ++ [v]), r2)
      | _ => Option.none
    | Option.none => Option.none

end

/-- Python `json.loads(s)`: a full-string parse; `Option.none` models a
raised `JSONDecodeError` (or `TypeError`). -/
def pyJsonLoads (s : String) : Option PyVal :=
  match jpVal (s.length + 1) s.toList with
  | some (v, rest) => if skipWs rest = [] then some v else Option.none
  | Option.none => Option.none

/-! ## `safe_load_plan` (orchestrator.py lines 728-813)

The Python function returns a dict on success and, on the final
fall-through path, returns `None` (the `return \x7b\x7d` at line 813 is
indented inside the `except` block and is unreachable on that path).  The
result type is therefore `Option PyDict`, with `Option.none` standing for
Python `None`. -/

/-- Stage 1: direct `json.loads` of the content (empty content parses as
an empty object), accepting a dict, a list wrapped as `steps`, or a
JSON-encoded string containing either. -/
def slpStage1 (content : String) : Option PyDict :=
  match pyJsonLoads (if content = "" then "\x7b\x7d" else content) with
  | some (PyVal.dict m) => some m
  | some (PyVal.list l) => some [("steps", PyVal.list l)]
  | some (PyVal.str s) =>
    match pyJsonLoads s with
    | some (PyVal.dict m) => some m
    | some (PyVal.list l) => some [("steps", PyVal.list l)]
    | _ => Option.none
  | _ => Option.none

def strDropChars (s : String) (n : Nat) : String := String.mk (s.toList.drop n)

def strDropRightChars (s : String) (n : Nat) : String :=
  String.mk (s.toList.take (s.toList.length - n))

/-- Stage 2: strip Markdown code fences (opening fence with optional
language tag, closing fence) and parse the remainder. -/
def slpStage2 (content : String) : Option PyDict :=
  let text := pyStrip content
  let text :=
    if "```".toList.isPrefixOf text.toList then
      let text :=
        match firstIdxOf '\n' text.toList with
        | some i => strDropChars text (i + 1)
        | Option.none => text
      if "```".toList.reverse.isPrefixOf text.toList.reverse then
        strDropRightChars text 3
      else text
    else text
  let text := pyStrip text
  match pyJsonLoads text with
  | some (PyVal.dict m) => some m
  | some (PyVal.list l) => some [("steps", PyVal.list l)]
  | _ => Option.none

/-- Stage 3: extract the largest `\x7b...\x7d` substring; if that attempt
raises, the bracketed-list attempt in the same `try` block is skipped. -/
def slpStage3 (content : String) : Option PyDict :=
  let cs := content.toList
  let braceAttempt : Option (Option PyDict) :=
    match firstIdxOf '\x7b' cs, lastIdxOf '\x7d' cs with
    | some s, some e =>
      if s < e then
        match pyJsonLoads (String.mk ((cs.drop s).take (e + 1 - s))) with
        | some (PyVal.dict m) => some (some m)
        | some _ => some Option.none
        | Option.none => Option.none
      else some Option.none
    | _, _ => some Option.none
  match braceAttempt with
  | Option.none => Option.none
  | some (some m) => some m
  | some Option.none =>
    match firstIdxOf '[' cs, lastIdxOf ']' cs with
    | some s, some e =>
      if s < e then
        match pyJsonLoads (String.mk ((cs.drop s).take (e + 1 - s))) with
        | some (PyVal.list l) => some [("steps", PyVal.list l)]
        | _ => Option.none
      else Option.none
    | _, _ => Option.none

/-- Stage 4: normalise adjacent objects, split on newlines, parse each
line and merge the resulting dicts; if nothing merged, the Python function
falls off the end and returns `None`. -/
def slpStage4 (content : String) : Option PyDict :=
  let normalized := reSubBraceGap (pyStrip content)
  let parts := splitNlPlus normalized.toList
  let merged := parts.foldl (fun acc part =>
    let p := pyStrip (String.mk part)
    if p = "" then acc
    else
      match pyJsonLoads p with
      | some (PyVal.dict m) => pyDictUpdateAll acc m
      | some (PyVal.list l) => pyDictUpdateAll acc [("steps", PyVal.list l)]
      | _ => acc) []
  if merged.isEmpty then Option.none else some merged

/-- Embeds `safe_load_plan` (orchestrator.py lines 728-813). -/
def safe_load_plan (content : String) : Option PyDict :=
  match slpStage1 content with
  | some m => some m
  | Option.none =>
    match slpStage2 content with
    | some m => some m
    | Option.none =>
      match slpStage3 content with
      | some m => some m
      | Option.none => slpStage4 content

/-- The step extraction `llm_planner` performs right after parsing
(orchestrator.py line 848): `list(plan_json.get("steps", []))`.  This line
sits outside the `try`/`except` of lines 840-847, so when `safe_load_plan`
returned `None` the attribute access raises an uncaught `AttributeError`,
modelled by `Except.error`. -/
def llm_planner_steps_of (plan_json : Option PyDict) : Except String (List PyVal) :=
  match plan_json with
  | Option.none => Except.error "AttributeError"
  | some d =>
    match pyLookup d "steps" with
    | some (PyVal.list l) => Except.ok l
    | some _ => Except.error "TypeError"
    | Option.none => Except.ok []

/-! ## `mcp_client.py`: router result and the `handle_question` gate -/

/-- The parsing part of `llm_route_task` (mcp_client.py lines 173-179):
decode the LLM content and extract `server`, `tool`, `arguments`; any
exception yields `(None, None, None)`. -/
def llm_route_task_parse (content : String) :
    Option String × Option String × Option PyDict :=
  match pyJsonLoads content with
  | some (PyVal.dict d) =>
    ( match pyLookup d "server" with
      | some PyVal.none => Option.none
      | some v => some (pyStr v)
      | Option.none => Option.none,
      match pyLookup d "tool" with
      | some PyVal.none => Option.none
      | some v => some (pyStr v)
      | Option.none => Option.none,
      match pyLookup d "arguments" with
      | some (PyVal.dict m) => some m
      | _ => Option.none )
  | _ => (Option.none, Option.none, Option.none)

/-- Python truthiness of the optional strings returned by the router
(`None` and the empty string are falsy). -/
def truthyStr : Option String → Bool
  | Option.none => false
  | some s => s ≠ ""

/-- Python truthiness of the optional argument dict (`None` and the empty
dict are falsy). -/
def truthyDict : Option PyDict → Bool
  | Option.none => false
  | some d => !d.isEmpty

/-- Outcome of the gate at the top of `handle_question`: either the
explicit failure message is returned, or execution proceeds toward
resolving the server script and invoking the selected tool. -/
inductive RouteOutcome where
  | message : String → RouteOutcome
  | invoke : String → String → PyDict → RouteOutcome

def routerFailureMsg : String :=
  "Router could not determine server/tool/arguments. Please rephrase your question."

/-- The gate of `handle_question` (mcp_client.py lines 297-300):
`if not server or not tool or not arguments: return <message>`, else
proceed to invocation with the routed triple. -/
def handle_question_route (server tool : Option String) (arguments : Option PyDict) :
    RouteOutcome :=
  if !truthyStr server || !truthyStr tool || !truthyDict arguments then
    RouteOutcome.message routerFailureMsg
  else
    RouteOutcome.invoke (server.getD "") (tool.getD "") (arguments.getD [])

/-! ## Data model (orchestrator.py lines 25-68) -/

structure ToolSchema where
  name : String
  description : Option String
  parameters : List (String × String)

structure ToolSpec where
  server_key : String
  tool_name : String
  schema : ToolSchema

structure ServerSpec where
  key : String
  command : String
  args : List String
  env : Option (List (String × String))
  tools : List ToolSchema

structure CapabilityGraph where
  servers : List (String × ServerSpec)
  tools : List (String × ToolSpec)

structure PlanStep where
  id : String
  intent : String
  tool_key : String
  args_hint : PyDict
  depends_on : List String

structure Plan where
  steps : List PlanStep

/-! ## `run_step` argument pipeline (orchestrator.py lines 1015-1092) -/

/-- The uppercase marker the interpolation pass looks for before it scans
any placeholders: `if isinstance(v, str) and "$\x7bSTEP_" in v`. -/
def stepMarker : String := "$" ++ String.singleton '\x7b' ++ "STEP_"

/-- The placeholder built for a completed step id `sid`:
`f"$\x7b\x7bsid\x7d_OUTPUT\x7d\x7d"`. -/
def stepPlaceholder (sid : String) : String :=
  "$" ++ String.singleton '\x7b' ++ sid ++ "_OUTPUT" ++ String.singleton '\x7d'

/-- Dependency interpolation (orchestrator.py lines 1032-1037): for each
string-valued argument containing the literal marker `$\x7bSTEP_`, scan
the results map; each matching placeholder assigns `v.replace(...)` of the
original value, so the final value reflects the last matching step id. -/
def interp_step_args (results : List (String × String)) (args : PyDict) : PyDict :=
  args.map (fun kv =>
    match kv.2 with
    | PyVal.str v =>
      if strIn stepMarker v then
        (kv.1, PyVal.str (results.foldl (fun acc sr =>
          let placeholder := stepPlaceholder sr.1
          if strIn placeholder v then pyReplace v placeholder sr.2 else acc) v))
      else kv
    | _ => kv)

/-- Phase 1 of the hint merge (orchestrator.py lines 1039-1051): planner
hints fill missing keys; a dict-valued `arguments` hint fills missing keys
of a dict-valued LLM `arguments`, but replaces a non-dict one. -/
def mergeHintsPhase1 (args_hint : PyDict) (args : PyDict) : PyDict :=
  args_hint.foldl (fun args hkv =>
    match hkv.2 with
    | PyVal.dict hd =>
      if hkv.1 = "arguments" then
        match pyLookup args "arguments" with
        | some (PyVal.dict ex) =>
          pyDictInsert args "arguments"
            (PyVal.dict (hd.foldl (fun e akv =>
              match pyLookup e akv.1 with
              | Option.none => pyDictInsert e akv.1 akv.2
              | some _ => e) ex))
        | _ => pyDictInsert args "arguments" (PyVal.dict hd)
      else
        match pyLookup args hkv.1 with
        | Option.none => pyDictInsert args hkv.1 hkv.2
        | some _ => args
    | _ =>
      match pyLookup args hkv.1 with
      | Option.none => pyDictInsert args hkv.1 hkv.2
      | some _ => args)
    args

/-- Phase 2 (orchestrator.py lines 1053-1061): flatten a dict-valued
`arguments` entry into the tool's declared top-level parameters, then
remove the wrapper. -/
def mergeHintsPhase2 (schemaParams : List (String × String)) (args : PyDict) : PyDict :=
  match pyLookup args "arguments" with
  | some (PyVal.dict nested) =>
    let args := schemaParams.foldl (fun a pkv =>
      match pyLookup a pkv.1 with
      | Option.none =>
        match pyLookup nested pkv.1 with
        | some v => pyDictInsert a pkv.1 v
        | Option.none => a
      | some _ => a) args
    pyDictRemove args "arguments"
  | _ => args

/-- Phase 3 (orchestrator.py lines 1063-1072): final fallback filling any
still-missing declared parameter from the hints, top-level first, then
from a nested `arguments` hint. -/
def mergeHintsPhase3 (schemaParams : List (String × String)) (args_hint : PyDict)
    (args : PyDict) : PyDict :=
  let hintNested : PyDict :=
    match pyLookup args_hint "arguments" with
    | some (PyVal.dict d) => d
    | _ => []
  schemaParams.foldl (fun a pkv =>
    match pyLookup a pkv.1 with
    | Option.none =>
      match pyLookup args_hint pkv.1 with
      | some v => pyDictInsert a pkv.1 v
      | Option.none =>
        match pyLookup hintNested pkv.1 with
        | some v => pyDictInsert a pkv.1 v
        | Option.none => a
    | some _ => a) args

/-- The complete hint merge of `run_step` (orchestrator.py lines
1038-1072). -/
def merge_hints (schemaParams : List (String × String)) (args_hint : PyDict)
    (args : PyDict) : PyDict :=
  mergeHintsPhase3 schemaParams args_hint
    (mergeHintsPhase2 schemaParams (mergeHintsPhase1 args_hint args))

/-- The guardrail coercion pass (orchestrator.py lines 1099-1134): for
each declared parameter present in the arguments, coerce the value to the
declared type tag; a value whose coercion raises is dropped. -/
def clean_args_step (acc : PyDict) (key expected : String) (val : PyVal) : PyDict :=
  let t := pyLower expected
  if t = "number" || t = "float" then
    match pyFloat val with
    | some q => pyDictInsert acc key (PyVal.float q)
    | Option.none => acc
  else if t = "integer" || t = "int" then
    match pyInt val with
    | some n => pyDictInsert acc key (PyVal.int n)
    | Option.none => acc
  else if t = "boolean" || t = "bool" then
    match val with
    | PyVal.bool b => pyDictInsert acc key (PyVal.bool b)
    | _ =>
      let s := pyLower (pyStrip (pyStr val))
      pyDictInsert acc key (PyVal.bool (s = "true" || s = "1" || s = "yes" || s = "y"))
  else if t = "dict" || t = "object" || t = "map" || t = "json" then
    match val with
    | PyVal.dict m => pyDictInsert acc key (PyVal.dict m)
    | PyVal.str s =>
      match pyJsonLoads s with
      | some (PyVal.dict m) => pyDictInsert acc key (PyVal.dict m)
      | _ => pyDictInsert acc key val
    | _ => pyDictInsert acc key val
  else
    pyDictInsert acc key (PyVal.str (pyStr val))

def clean_args_go (args : PyDict) (acc : PyDict) :
    List (String × String) → PyDict
  | [] => acc
  | (key, expected) :: rest =>
    match pyLookup args key with
    | Option.none => clean_args_go args acc rest
    | some val => clean_args_go args (clean_args_step acc key expected val) rest

/-- Embeds `cleaned_args` as computed by `run_step` before each invocation
attempt (orchestrator.py lines 1100-1134). -/
def clean_args (schemaParams : List (String × String)) (args : PyDict) : PyDict :=
  clean_args_go args [] schemaParams

/-! ## `run_step` retry loop (orchestrator.py lines 1094-1144)

The invocation of one attempt (argument cleaning plus `_call_tool` under
`asyncio.wait_for`) is abstracted as a function from the attempt number to
`Except`: `Except.error e` models any raised exception (including
`TimeoutError`) with message `e`.  The loop returns the number of attempts
made together with the step's recorded result. -/

def retry_go (invoke : Nat → Except String String) (lastExc : String)
    (attempt : Nat) : Nat → Nat × String
  | 0 => (attempt, "ERROR: " ++ lastExc)
  | Nat.succ r =>
    match invoke attempt with
    | Except.ok v => (attempt + 1, v)
    | Except.error e => retry_go invoke e (attempt + 1) r

/-- Embeds `while attempt <= max_retries` with the post-loop
`return step.id, f"ERROR: \x7blast_exc\x7d"`; Python's `last_exc` starts
as `None`. -/
def run_step_invoke (invoke : Nat → Except String String) (max_retries : Nat) :
    Nat × String :=
  retry_go invoke "None" 0 (max_retries + 1)

/-! ## Scheduler (orchestrator.py lines 1146-1164)

`run_step` always returns a pair (every exception is caught inside it), so
for scheduling purposes the whole per-step execution is abstracted as a
function `execf : PlanStep → String` giving the step's recorded result. -/

/-- The step dict `pending = \x7bs.id: s for s in plan.steps\x7d`. -/
def stepsDict (steps : List PlanStep) : List (String × PlanStep) :=
  steps.foldl (fun acc s => pyDictInsert acc s.id s) []

/-- A step is ready when every declared dependency is a key of the results
map: `all(d in results for d in deps.get(s.id, []))`. -/
def isReady (results : List (String × String)) (s : PlanStep) : Bool :=
  s.depends_on.all (fun d => hasKey results d)

/-- The scheduling loop: compute the ready set, run it (gather preserves
order), merge results, remove the launched ids, repeat; stop when no step
is ready. -/
def schedLoop (execf : PlanStep → String) (pending : List PlanStep)
    (results : List (String × String)) : List (String × String) :=
  if h : (pending.filter (isReady results)).isEmpty then results
  else
    schedLoop execf
      (pending.filter (fun s =>
        !((pending.filter (isReady results)).any (fun r => r.id == s.id))))
      ((pending.filter (isReady results)).foldl
        (fun acc r => pyDictInsert acc r.id (execf r)) results)
termination_by pending.length
decreasing_by
  have hmem : ∃ r0, r0 ∈ pending.filter (isReady results) := by
    cases hx : pending.filter (isReady results) with
    | nil => rw [hx] at h; simp at h
    | cons a t => exact ⟨a, by simp [hx]⟩
  obtain ⟨r0, hr0⟩ := hmem
  have hrp : r0 ∈ pending := (List.mem_filter.mp hr0).1
  have : (pending.filter (fun s =>
      !((pending.filter (isReady results)).any (fun r => r.id == s.id)))).length
      < pending.length := by
    by_contra hle
    push_neg at hle
    have hsub : ∀ x ∈ pending, x ∈ pending.filter (fun s =>
        !((pending.filter (isReady results)).any (fun r => r.id == s.id))) := by
      intro x hx
      have := (List.filter_sublist pending).eq_of_length_le hle
      rw [this]
      exact hx
    have hr0' := hsub r0 hrp
    have hfa := (List.mem_filter.mp hr0').2
    simp only [Bool.not_eq_true', List.any_eq_false] at hfa
    have := hfa r0 hr0
    simp at this
  exact this

/-- Embeds the scheduling and aggregation of `orchestrate` (orchestrator.py lines
1146-1164): run the loop, then order the summary by original plan-step
order, joining with blank lines. -/
def orchestrate (execf : PlanStep → String) (plan : Plan) :
    List (String × String) × String :=
  let pending := (stepsDict plan.steps).map Prod.snd
  let results := schedLoop execf pending []
  let ordered := plan.steps.filterMap (fun s => pyLookup results s.id)
  (results, String.intercalate "\n\n" ordered)

/-! ## `simple_planner` (orchestrator.py lines 334-633)

The planner's structure (keyword tests via Python `in`, graph lookups,
append/return control flow) is embedded directly.  The `re.search` /
`re.sub` library calls it makes on the master question are deterministic
functions of the question; their results are collected in a `RegexOracle`
parameter, one field per distinct pattern, so every theorem below holds
for every possible behaviour of the regex library. -/

structure RegexOracle where
  /-- group 1 of `(?:for customer|customer)\s+(\d+)` -/
  customer_for : Option String
  /-- whether `\d\x7b9,\x7d` matches -/
  big_number : Bool
  /-- group 1 of `(?:for|in|account for)\s+([A-Za-z\s]+?)(?:\s|$)` -/
  country : Option String
  /-- groups of `(?i)integrate\s+(.+?)\s+from\s+([^\s]+)\s+to\s+([^\s]+)` -/
  integral_definite : Option (String × String × String)
  /-- group 1 of `(?i)integrate\s+(.+)$` -/
  integral_rest : Option String
  /-- group 1 of `(?i)post\s+(.+)$` -/
  post_text : Option String
  /-- result of `re.sub` removing the leading create-post command words -/
  post_text_sub : String
  /-- group 1 of `@([A-Za-z0-9_]\x7b1,15\x7d)` -/
  at_username : Option String
  /-- group 1 of `username\s+([A-Za-z0-9_]\x7b1,15\x7d)` -/
  kw_username : Option String
  /-- group 1 of `([A-Za-z0-9_-]\x7b8,\x7d)` -/
  video_id : Option String
  /-- group 1 of the Windows video-file-path pattern -/
  file_path : Option String
  /-- group 1 of the upload-title pattern -/
  upload_title : Option String
  /-- group 1 of `(?:from customer|customer)\s+(\d+)` -/
  from_customer : Option String
  /-- group 1 of `campaign[_\s](\d+)` -/
  campaign_num : Option String
  /-- group 1 of the ad-group-name pattern -/
  ad_group_name : Option String
  /-- group 1 of `(?:update|modify|change|edit)\s+(\w+)` -/
  update_field : Option String
  /-- group 1 of `(?:to|as)\s+([A-Za-z0-9\s]+?)(?:\s|$)` -/
  update_value : Option String

def anyKw (kws : List String) (q : String) : Bool := kws.any (fun k => strIn k q)

/-- Append a chosen step with id `step_\x7blen(chosen)+1\x7d`. -/
def appendStep (chosen : List PlanStep) (intent tool_key : String)
    (args_hint : PyDict) : List PlanStep :=
  chosen ++ [PlanStep.mk ("step_" ++ toString (chosen.length + 1)) intent tool_key args_hint []]

/-- Embeds `add_first_match` (orchestrator.py lines 341-353): append a step for
the first graph tool whose lowered key, or the lowered question, contains
one of the hint literals. -/
def add_first_match (mq q : String) (tools : List (String × ToolSpec))
    (chosen : List PlanStep) (hints prefer : List String) (args_hint : PyDict) :
    List PlanStep :=
  match tools.find? (fun kv =>
      (hints ++ prefer).any (fun hw =>
        strIn hw (pyLower (kv.2.server_key ++ "." ++ kv.2.tool_name)) || strIn hw q)) with
  | some kv => appendStep chosen (kv.2.tool_name ++ " for " ++ mq) kv.1 args_hint
  | Option.none => chosen

def adsKws : List String :=
  ["google ads", "googleads", "ads", "campaign", "ad group", "customer"]

def createCampaignKws : List String :=
  ["create campaign", "new campaign", "add campaign", "start campaign", "campaign for customer"]

def createCustomerKws : List String :=
  ["create customer", "new customer", "add customer", "customer account"]

/-- First sub-branch of the priority Google-Ads block (orchestrator.py
lines 358-372): create-campaign for an existing customer; `some` models
the early `return`. -/
def priorityAddCampaign (q : String) (o : RegexOracle)
    (tools : List (String × ToolSpec)) : Option Plan :=
  if anyKw createCampaignKws q && anyKw ["customer", "for customer"] q then
    match o.customer_for with
    | some cid =>
      if hasKey tools "google_ads.add_campaign" then
        some (Plan.mk (appendStep [] ("create campaign for customer " ++ cid)
          "google_ads.add_campaign" [("a", PyVal.str cid)]))
      else Option.none
    | Option.none => Option.none
  else Option.none

/-- Second sub-branch of the priority Google-Ads block (orchestrator.py
lines 375-392): create-customer when no customer id is present. -/
def priorityCreateCustomer (mq q : String) (o : RegexOracle)
    (tools : List (String × ToolSpec)) : Option Plan :=
  if anyKw createCustomerKws q && !anyKw ["campaign", "ad group"] q then
    if o.big_number then Option.none
    else
      if hasKey tools "google_ads.create_customer" then
        some (Plan.mk (appendStep [] ("create customer account for " ++ mq)
          "google_ads.create_customer"
          [("a", PyVal.str (match o.country with
            | some c => pyStrip c
            | Option.none => "United States"))]))
      else Option.none
  else Option.none

/-- The priority Google-Ads block (orchestrator.py lines 356-392); `some`
models the early `return Plan(steps=chosen)`. -/
def google_ads_priority (mq q : String) (o : RegexOracle)
    (tools : List (String × ToolSpec)) : Option Plan :=
  if anyKw adsKws q then
    match priorityAddCampaign q o tools with
    | some p => some p
    | Option.none => priorityCreateCustomer mq q o tools
  else Option.none

/-- Embeds `_infer_integral_args` (orchestrator.py lines 396-414). -/
def infer_integral_args (o : RegexOracle) : PyDict :=
  match o.integral_definite with
  | some egs =>
    let expr := pyStrip egs.1
    let lower := pyStrip egs.2.1
    let upper := pyStrip egs.2.2
    let var := if strIn "x" expr then "x"
      else if strIn "t" expr then "t"
      else if strIn "y" expr then "y"
      else "x"
    [("expression", PyVal.str expr), ("variable", PyVal.str var),
     ("lower", PyVal.str lower), ("upper", PyVal.str upper)]
  | Option.none =>
    let expr := match o.integral_rest with
      | some g => pyStrip g
      | Option.none => "x"
    let var := if strIn "x" expr then "x" else if strIn "t" expr then "t" else "x"
    [("expression", PyVal.str expr), ("variable", PyVal.str var)]

/-- The keyword-driven math/language section (orchestrator.py lines
416-431). -/
def phase_math (mq q : String) (o : RegexOracle) (tools : List (String × ToolSpec))
    (chosen : List PlanStep) : List PlanStep :=
  let chosen :=
    if anyKw ["integral", "integrate", "area under"] q then
      let hints := infer_integral_args o
      if hasKey hints "expression" && hasKey hints "variable"
          && hasKey hints "lower" && hasKey hints "upper" then
        add_first_match mq q tools chosen ["integration.integrate_definite"] [] hints
      else
        add_first_match mq q tools chosen
          ["integration.integrate_indefinite", "integrate_indefinite"] [] hints
    else chosen
  let chosen :=
    if anyKw ["derivative", "differentiate", "slope"] q then
      add_first_match mq q tools chosen ["differentiation.derivative"] [] []
    else chosen
  let chosen :=
    if anyKw ["probability", "bayes", "conditional"] q then
      add_first_match mq q tools chosen ["probability."] [] []
    else chosen
  let chosen :=
    if anyKw ["venn"] q then add_first_match mq q tools chosen ["venn."] [] []
    else chosen
  let chosen :=
    if anyKw ["grammar", "proofread"] q then
      add_first_match mq q tools chosen ["grammar.check_grammar"] [] []
    else chosen
  if anyKw ["translate", "english"] q then
    add_first_match mq q tools chosen ["translate."] [] []
  else chosen

def xPostKws : List String :=
  ["twitter", " on x", " on twitter", "tweet", "create post", "create a post",
   "post on x", "post on twitter"]

/-- The X/Twitter create-post heuristic (orchestrator.py lines 433-451). -/
def phase_x_create_post (mq q : String) (o : RegexOracle)
    (tools : List (String × ToolSpec)) (chosen : List PlanStep) : List PlanStep :=
  if chosen.isEmpty && anyKw xPostKws q then
    let post_text :=
      match o.post_text with
      | some g =>
        let s := pyStrip g
        if s ≠ "" then s else pyStrip o.post_text_sub
      | Option.none => pyStrip o.post_text_sub
    let args_hint : PyDict :=
      if post_text ≠ "" then [("a", PyVal.str post_text)] else []
    if hasKey tools "x.create_post" then
      appendStep chosen ("create post for " ++ mq) "x.create_post" args_hint
    else chosen
  else chosen

def xQueryKws : List String :=
  ["twitter", " on x", " on twitter", "tweets", "tweet", " x ", " x:", "@",
   "x user", "twitter user", "user details", "user info"]

/-- The X/Twitter query heuristic (orchestrator.py lines 453-475). -/
def phase_x_query (mq q : String) (o : RegexOracle)
    (tools : List (String × ToolSpec)) (chosen : List PlanStep) : List PlanStep :=
  if chosen.isEmpty && anyKw xQueryKws q then
    let uname := match o.at_username with
      | some u => some u
      | Option.none => o.kw_username
    match uname with
    | some u =>
      if hasKey tools "x.get_user_by_username" then
        appendStep chosen ("get user by username for " ++ mq) "x.get_user_by_username"
          [("a", PyVal.str u)]
      else if hasKey tools "x.get_my_user_info" then
        appendStep chosen ("get user info for " ++ mq) "x.get_my_user_info" []
      else chosen
    | Option.none =>
      if hasKey tools "x.get_my_user_info" then
        appendStep chosen ("get user info for " ++ mq) "x.get_my_user_info" []
      else chosen
  else chosen

def tiktokKws : List String :=
  ["tiktok", "tik tok", "tt video", "tiktok video", "tiktok post", "tiktok search"]

/-- The TikTok heuristic (orchestrator.py lines 477-487). -/
def phase_tiktok (mq q : String) (tools : List (String × ToolSpec))
    (chosen : List PlanStep) : List PlanStep :=
  if chosen.isEmpty && anyKw tiktokKws q then
    if strIn "subtitle" q || strIn "subtitles" q then
      add_first_match mq q tools chosen ["tiktok.tiktok_get_subtitle"] [] []
    else if anyKw ["detail", "details", "info", "information"] q then
      add_first_match mq q tools chosen ["tiktok.tiktok_get_post_details"] [] []
    else if anyKw ["search", "find", "videos", "posts"] q then
      add_first_match mq q tools chosen ["tiktok.tiktok_search"] [] []
    else
      add_first_match mq q tools chosen ["tiktok.tiktok_search"] [] []
  else chosen

/-- The YouTube heuristics (orchestrator.py lines 489-524). -/
def phase_youtube (mq q : String) (o : RegexOracle)
    (tools : List (String × ToolSpec)) (chosen : List PlanStep) : List PlanStep :=
  if chosen.isEmpty then
    if (strIn "youtube" q || strIn "video" q) && anyKw ["delete", "remove"] q then
      let args_hint : PyDict :=
        match o.video_id with
        | some v => [("video_id", PyVal.str v)]
        | Option.none => []
      if hasKey tools "youtube.remove_video" then
        appendStep chosen ("remove video for " ++ mq) "youtube.remove_video" args_hint
      else chosen
    else if strIn "upload" q || o.file_path.isSome then
      let a1 : PyDict :=
        match o.file_path with
        | some f => [("file", PyVal.str f)]
        | Option.none => []
      let args_hint :=
        match o.upload_title with
        | some t => a1 ++ [("title", PyVal.str (pyStrip t))]
        | Option.none => a1
      if hasKey tools "youtube.upload_video" then
        appendStep chosen ("upload video for " ++ mq) "youtube.upload_video" args_hint
      else chosen
    else chosen
  else chosen

/-- The non-priority Google-Ads section (orchestrator.py lines 527-620). -/
def phase_google_ads (mq q : String) (o : RegexOracle)
    (tools : List (String × ToolSpec)) (chosen : List PlanStep) : List PlanStep :=
  if chosen.isEmpty && anyKw adsKws q then
    if anyKw createCustomerKws q && !anyKw ["campaign", "ad group"] q then
      if o.big_number then chosen
      else
        let country := match o.country with
          | some c => pyStrip c
          | Option.none => "United States"
        if hasKey tools "google_ads.create_customer" then
          appendStep chosen ("create customer account for " ++ mq)
            "google_ads.create_customer" [("a", PyVal.str country)]
        else chosen
    else if anyKw createCampaignKws q && anyKw ["customer", "for customer"] q then
      match o.customer_for with
      | some cid =>
        if hasKey tools "google_ads.add_campaign" then
          appendStep chosen ("create campaign for customer " ++ cid)
            "google_ads.add_campaign" [("a", PyVal.str cid)]
        else chosen
      | Option.none => chosen
    else if anyKw ["remove campaign", "delete campaign", "stop campaign", "end campaign"] q then
      let a := match o.from_customer with | some c => c | Option.none => "123456789"
      let b := match o.campaign_num with | some c => c | Option.none => "123456789"
      if hasKey tools "google_ads.remove_campaign" then
        appendStep chosen ("remove campaign for " ++ mq) "google_ads.remove_campaign"
          [("a", PyVal.str a), ("b", PyVal.str b)]
      else chosen
    else if anyKw ["show campaign", "get campaign", "campaign details", "list campaigns"] q then
      let a := match o.customer_for with | some c => c | Option.none => "123456789"
      if hasKey tools "google_ads.get_campaign" then
        appendStep chosen ("get campaign details for " ++ mq) "google_ads.get_campaign"
          [("a", PyVal.str a)]
      else chosen
    else if anyKw ["add ad group", "create ad group", "new ad group"] q then
      let a := match o.ad_group_name with | some n => pyStrip n | Option.none => "New Ad Group"
      let b := match o.campaign_num with | some c => c | Option.none => "123456789"
      if hasKey tools "google_ads.add_ad_group" then
        appendStep chosen ("add ad group for " ++ mq) "google_ads.add_ad_group"
          [("a", PyVal.str a), ("b", PyVal.str b)]
      else chosen
    else if anyKw ["update campaign", "modify campaign", "change campaign", "edit campaign"] q then
      let a := match o.campaign_num with | some c => c | Option.none => "123456789"
      let b := match o.update_field with | some f => f | Option.none => "status"
      let c := match o.update_value with | some v => pyStrip v | Option.none => "paused"
      if hasKey tools "google_ads.update_campaign" then
        appendStep chosen ("update campaign for " ++ mq) "google_ads.update_campaign"
          [("a", PyVal.str a), ("b", PyVal.str b), ("c", PyVal.str c)]
      else chosen
    else chosen
  else chosen

/-- The sequential updates of `chosen` through the heuristic sections
(orchestrator.py lines 394-620), starting from the empty list. -/
def planner_phases (mq q : String) (o : RegexOracle)
    (tools : List (String × ToolSpec)) : List PlanStep :=
  phase_google_ads mq q o tools
    (phase_youtube mq q o tools
      (phase_tiktok mq q tools
        (phase_x_query mq q o tools
          (phase_x_create_post mq q o tools
            (phase_math mq q o tools [])))))

/-- The tail of `simple_planner` after the priority block: run the
heuristic sections, then apply the first-tool fallback (orchestrator.py
lines 622-633). -/
def simple_planner_rest (mq q : String) (o : RegexOracle)
    (graph : CapabilityGraph) : Plan :=
  if (planner_phases mq q o graph.tools).isEmpty then
    match graph.tools with
    | [] => Plan.mk []
    | kv :: _ =>
      Plan.mk [PlanStep.mk "step_1" (kv.2.tool_name ++ " for " ++ mq) kv.1 [] []]
  else Plan.mk (planner_phases mq q o graph.tools)

/-- Embeds `simple_planner` (orchestrator.py lines 334-633). -/
def simple_planner (mq : String) (o : RegexOracle) (graph : CapabilityGraph) : Plan :=
  match google_ads_priority mq (pyLower mq) o graph.tools with
  | some p => p
  | Option.none => simple_planner_rest mq (pyLower mq) o graph

/-! # Lemmas about the dict model -/

theorem pyLookup_insert_self {α : Type} (l : List (String × α)) (k : String) (v : α) :
    pyLookup (pyDictInsert l k v) k = some v := by
  induction l with
  | nil => simp [pyDictInsert, pyLookup]
  | cons kv rest ih =>
    obtain ⟨k', v'⟩ := kv
    by_cases h : k' = k
    · simp [pyDictInsert, pyLookup, h]
    · simp [pyDictInsert, pyLookup, h, ih]

theorem pyLookup_insert_ne {α : Type} (l : List (String × α)) (k' k : String) (v : α)
    (h : k' ≠ k) : pyLookup (pyDictInsert l k' v) k = pyLookup l k := by
  induction l with
  | nil => simp [pyDictInsert, pyLookup, h]
  | cons kv rest ih =>
    obtain ⟨k0, v0⟩ := kv
    by_cases h0 : k0 = k'
    · simp [pyDictInsert, pyLookup, h0, h]
    · simp only [pyDictInsert, pyLookup, h0, if_neg h0]
      by_cases h1 : k0 = k <;> simp [h1, ih]

theorem pyLookup_remove_ne {α : Type} (l : List (String × α)) (k' k : String)
    (h : k' ≠ k) : pyLookup (pyDictRemove l k') k = pyLookup l k := by
  induction l with
  | nil => simp [pyDictRemove]
  | cons kv rest ih =>
    obtain ⟨k0, v0⟩ := kv
    by_cases h0 : k0 = k'
    · subst h0
      simp [pyDictRemove, pyLookup, h]
    · by_cases h1 : k0 = k <;> simp [pyDictRemove, pyLookup, h0, h1, ih, Ne.symm h]

theorem pyLookup_mem {α : Type} (l : List (String × α)) (k : String) (v : α)
    (h : pyLookup l k = some v) : (k, v) ∈ l := by
  induction l with
  | nil => simp [pyLookup] at h
  | cons kv rest ih =>
    obtain ⟨k0, v0⟩ := kv
    by_cases h0 : k0 = k
    · subst h0
      simp [pyLookup] at h
      simp [h]
    · simp [pyLookup, h0] at h
      exact List.mem_cons_of_mem _ (ih h)

theorem mem_pyDictInsert {α : Type} (l : List (String × α)) (k : String) (v : α)
    (p : String × α) (h : p ∈ pyDictInsert l k v) : p ∈ l ∨ p = (k, v) := by
  induction l with
  | nil => simp [pyDictInsert] at h; simp [h]
  | cons kv rest ih =>
    obtain ⟨k0, v0⟩ := kv
    by_cases h0 : k0 = k
    · subst h0
      simp [pyDictInsert] at h
      rcases h with h | h
      · right; simp [h]
      · left; simp [h]
    · simp [pyDictInsert, h0] at h
      rcases h with h | h
      · left; simp [h]
      · rcases ih h with h' | h'
        · left; exact List.mem_cons_of_mem _ h'
        · right; exact h'

/-! # C1: dependency interpolation and the uppercase marker -/

/-- C1: on the spec's end-to-end scenario 3 — step ids `step_1`/`step_2`
as the orchestrator itself generates, the completed result of `step_1`
being "X", the later argument `"$\x7bstep_1_OUTPUT\x7d suffix"` — the
interpolation pass leaves the argument unchanged instead of producing
`"X suffix"`, because its guard scans for the uppercase literal
`$\x7bSTEP_`; the same pass does rewrite an uppercase id, isolating the
case-sensitivity slip. -/
theorem interp_lowercase_placeholder_not_resolved :
    interp_step_args [("step_1", "X")]
      [("text", PyVal.str "$\x7bstep_1_OUTPUT\x7d suffix")]
      = [("text", PyVal.str "$\x7bstep_1_OUTPUT\x7d suffix")]
    ∧ interp_step_args [("STEP_1", "X")]
      [("text", PyVal.str "$\x7bSTEP_1_OUTPUT\x7d suffix")]
      = [("text", PyVal.str "X suffix")]
    ∧ ("$\x7bstep_1_OUTPUT\x7d suffix" : String) ≠ "X suffix" := by
  refine ⟨rfl, rfl, ?_⟩
  intro h
  exact absurd (congrArg String.length h) (by decide)

/-! # C5 and C10: the tolerant decoder -/

/-- C5: `safe_load_plan` recovers the mapping from (a) a clean JSON
object, (b) the object wrapped in Markdown code fences, (c) the object
embedded in surrounding prose, and (d) merges the keys of two
concatenated JSON objects. -/
theorem safe_load_plan_tolerant_cases :
    safe_load_plan "\x7b\"a\": 1\x7d" = some [("a", PyVal.int 1)]
    ∧ safe_load_plan "```json\n\x7b\"a\": 1\x7d\n```" = some [("a", PyVal.int 1)]
    ∧ safe_load_plan "The plan is \x7b\"a\": 1\x7d as requested."
      = some [("a", PyVal.int 1)]
    ∧ safe_load_plan "\x7b\"a\": 1\x7d\x7b\"b\": 2\x7d"
      = some [("a", PyVal.int 1), ("b", PyVal.int 2)] :=
  ⟨rfl, rfl, rfl, rfl⟩

/-- C10: on plain prose — a string with no brace and no bracket, none of
whose lines parses as JSON — `safe_load_plan` falls off its final
fall-through path and returns Python `None` instead of a dict, and the
step extraction `llm_planner` performs at line 848, outside its
parse-error handler, then raises on that `None`. -/
theorem safe_load_plan_none_on_prose :
    safe_load_plan "Sorry, I cannot help with that." = Option.none
    ∧ ("Sorry, I cannot help with that.".toList.all
        (fun c => c != '\x7b' && c != '[')) = true
    ∧ llm_planner_steps_of (safe_load_plan "Sorry, I cannot help with that.")
      = Except.error "AttributeError" :=
  ⟨rfl, rfl, rfl⟩

/-! # C9: the `handle_question` gate -/

/-- C9 counterexample: the router determines a server, a tool and an
argument object — the empty object `\x7b\x7d`, as a no-argument tool such
as `x.get_my_user_info` requires — yet `handle_question` returns the
could-not-determine message instead of proceeding to invocation, because
Python's `not arguments` is true for an empty dict. -/
theorem handle_question_message_on_empty_args :
    llm_route_task_parse
      "\x7b\"server\": \"x\", \"tool\": \"get_my_user_info\", \"arguments\": \x7b\x7d\x7d"
      = (some "x", some "get_my_user_info", some [])
    ∧ handle_question_route (some "x") (some "get_my_user_info") (some [])
      = RouteOutcome.message routerFailureMsg :=
  ⟨rfl, rfl⟩

/-- C9 (amended): `handle_question` returns the explicit
could-not-determine message exactly when some routed component is falsy —
the server or tool missing or empty, or the argument object missing or
empty (so a total routing failure is one such case, but a determined yet
empty argument object is another); whenever server, tool and arguments
are all non-empty, execution proceeds to invoke the selected tool with
exactly the routed triple. -/
theorem handle_question_message_iff_falsy (server tool : Option String)
    (arguments : Option PyDict) :
    (handle_question_route server tool arguments
        = RouteOutcome.message routerFailureMsg
      ↔ server.getD "" = "" ∨ tool.getD "" = "" ∨ (arguments.getD []).isEmpty = true)
    ∧ (∀ s t a, server = some s → tool = some t → arguments = some a →
        s ≠ "" → t ≠ "" → a ≠ [] →
        handle_question_route server tool arguments = RouteOutcome.invoke s t a) := by
  constructor
  · cases server with
    | none => simp [handle_question_route, truthyStr]
    | some s =>
      cases tool with
      | none => simp [handle_question_route, truthyStr]
      | some t =>
        cases arguments with
        | none => simp [handle_question_route, truthyStr, truthyDict]
        | some a =>
          by_cases hs : s = "" <;> by_cases ht : t = "" <;> by_cases ha : a.isEmpty <;>
            simp [handle_question_route, truthyStr, truthyDict, hs, ht, ha, Option.getD,
              List.isEmpty_iff]
  · intro s t a hserver htool hargs hs ht ha
    subst hserver; subst htool; subst hargs
    have haE : a.isEmpty = false := by
      cases a with
      | nil => exact absurd rfl ha
      | cons x l => simp
    simp [handle_question_route, truthyStr, truthyDict, hs, ht, haE, Option.getD]

/-- Closed instance discharging the hypotheses of
`handle_question_message_iff_falsy` at a concrete routed triple. -/
theorem handle_question_message_iff_falsy_witness :
    handle_question_route (some "arithmetic") (some "add")
      (some [("a", PyVal.float 12), ("b", PyVal.float 30)])
      = RouteOutcome.invoke "arithmetic" "add"
        [("a", PyVal.float 12), ("b", PyVal.float 30)] :=
  (handle_question_message_iff_falsy (some "arithmetic") (some "add")
    (some [("a", PyVal.float 12), ("b", PyVal.float 30)])).2
    "arithmetic" "add" [("a", PyVal.float 12), ("b", PyVal.float 30)]
    rfl rfl rfl (by decide) (by decide) (by simp)

/-! # C7: the guardrail coercion pass -/

/-- C7 counterexample: for the declared tag `list` (present in the static
catalog, e.g. `youtube.upload_video`'s `tags`) the coercion pass takes
the final `str(val)` branch, so a value that is already a list is
replaced by its string rendering rather than returned unchanged. -/
theorem clean_args_list_value_stringified :
    pyLookup (clean_args [("tags", "list")] [("tags", PyVal.list [PyVal.str "a"])]) "tags"
      = some (PyVal.str (pyStr (PyVal.list [PyVal.str "a"])))
    ∧ pyLookup (clean_args [("tags", "list")] [("tags", PyVal.list [PyVal.str "a"])]) "tags"
      ≠ some (PyVal.list [PyVal.str "a"]) := by
  refine ⟨rfl, ?_⟩
  have h : pyLookup (clean_args [("tags", "list")]
      [("tags", PyVal.list [PyVal.str "a"])]) "tags"
      = some (PyVal.str (pyStr (PyVal.list [PyVal.str "a"]))) := rfl
  rw [h]
  simp

/-- The value shapes on which one pass of the coercion leaves the value
untouched: each tag with a dedicated branch paired with a value of that
type, or a string value under any tag without a dedicated branch
(including `string`, whose branch is `str(val)`). -/
def coercionFixed (tag : String) (val : PyVal) : Prop :=
  ((pyLower tag = "number" ∨ pyLower tag = "float") ∧ ∃ q, val = PyVal.float q)
  ∨ ((pyLower tag = "integer" ∨ pyLower tag = "int") ∧ ∃ n, val = PyVal.int n)
  ∨ ((pyLower tag = "boolean" ∨ pyLower tag = "bool") ∧ ∃ b, val = PyVal.bool b)
  ∨ ((pyLower tag = "dict" ∨ pyLower tag = "object" ∨ pyLower tag = "map"
      ∨ pyLower tag = "json") ∧ ∃ m, val = PyVal.dict m)
  ∨ (pyLower tag ≠ "number" ∧ pyLower tag ≠ "float" ∧ pyLower tag ≠ "integer"
      ∧ pyLower tag ≠ "int" ∧ pyLower tag ≠ "boolean" ∧ pyLower tag ≠ "bool"
      ∧ pyLower tag ≠ "dict" ∧ pyLower tag ≠ "object" ∧ pyLower tag ≠ "map"
      ∧ pyLower tag ≠ "json" ∧ ∃ s, val = PyVal.str s)

theorem clean_args_step_fixed (acc : PyDict) (key tag : String) (val : PyVal)
    (ht : coercionFixed tag val) :
    pyLookup (clean_args_step acc key tag val) key = some val := by
  rcases ht with ⟨htag, q, hv⟩ | ⟨htag, n, hv⟩ | ⟨htag, b, hv⟩ | ⟨htag, m, hv⟩ |
    ⟨h1, h2, h3, h4, h5, h6, h7, h8, h9, h10, s, hv⟩
  · subst hv
    rcases htag with htag | htag <;>
      simp [clean_args_step, htag, pyFloat, pyLookup_insert_self]
  · subst hv
    rcases htag with htag | htag <;>
      simp [clean_args_step, htag, pyInt, pyLookup_insert_self]
  · subst hv
    rcases htag with htag | htag <;>
      simp [clean_args_step, htag, pyLookup_insert_self]
  · subst hv
    rcases htag with htag | htag | htag | htag <;>
      simp [clean_args_step, htag, pyLookup_insert_self]
  · subst hv
    simp [clean_args_step, h1, h2, h3, h4, h5, h6, h7, h8, h9, h10, pyStr,
      pyLookup_insert_self]

theorem clean_args_step_other (acc : PyDict) (key k0 tag : String) (val : PyVal)
    (h : k0 ≠ key) :
    pyLookup (clean_args_step acc k0 tag val) key = pyLookup acc key := by
  simp only [clean_args_step]
  split_ifs <;>
    first
      | (cases hF : pyFloat val <;> simp [hF, pyLookup_insert_ne _ _ _ _ h])
      | (cases hI : pyInt val <;> simp [hI, pyLookup_insert_ne _ _ _ _ h])
      | (cases val <;> simp [pyLookup_insert_ne _ _ _ _ h] <;>
          (try split) <;> simp [pyLookup_insert_ne _ _ _ _ h])
      | simp [pyLookup_insert_ne _ _ _ _ h]

theorem clean_args_go_skip (args : PyDict) (key : String) :
    ∀ (params : List (String × String)) (acc : PyDict),
      (∀ kv ∈ params, kv.1 ≠ key) →
      pyLookup (clean_args_go args acc params) key = pyLookup acc key := by
  intro params
  induction params with
  | nil => intro acc _; simp [clean_args_go]
  | cons kv rest ih =>
    intro acc hne
    obtain ⟨k0, t0⟩ := kv
    have hk0 : k0 ≠ key := hne (k0, t0) (List.mem_cons_self _ _)
    have hrest : ∀ kv ∈ rest, kv.1 ≠ key :=
      fun kv hkv => hne kv (List.mem_cons_of_mem _ hkv)
    cases hl : pyLookup args k0 with
    | none => simp [clean_args_go, hl, ih _ hrest]
    | some v =>
      simp [clean_args_go, hl, ih _ hrest, clean_args_step_other _ _ _ _ _ hk0]

/-- C7 (amended): the coercion pass returns a value unchanged whenever
the declared tag has a dedicated branch and the value already has that
type — `number`/`float` with a float, `integer`/`int` with an int,
`boolean`/`bool` with a bool, `dict`/`object`/`map`/`json` with a
mapping — and whenever the value is a string under any remaining tag
(including `string`); it is not the identity on correctly-typed values of
the other declared tags, such as `list`, which are stringified. -/
theorem clean_args_typed_value_preserved (params : List (String × String))
    (args : PyDict) (key tag : String) (val : PyVal)
    (hnd : (params.map Prod.fst).Nodup)
    (hp : pyLookup params key = some tag)
    (ha : pyLookup args key = some val)
    (ht : coercionFixed tag val) :
    pyLookup (clean_args params args) key = some val := by
  unfold clean_args
  generalize hacc : ([] : PyDict) = acc
  clear hacc
  induction params generalizing acc with
  | nil => simp [pyLookup] at hp
  | cons kv rest ih =>
    obtain ⟨k0, t0⟩ := kv
    by_cases hk0 : k0 = key
    · subst hk0
      simp [pyLookup] at hp
      subst hp
      have hrest : ∀ kv ∈ rest, kv.1 ≠ k0 := by
        intro kv hkv heq
        simp only [List.map_cons, List.nodup_cons] at hnd
        exact hnd.1 (heq ▸ List.mem_map_of_mem Prod.fst hkv)
      simp only [clean_args_go, ha]
      rw [clean_args_go_skip args k0 rest _ hrest]
      exact clean_args_step_fixed acc k0 _ val ht
    · simp only [pyLookup, if_neg hk0] at hp
      have hnd' : (rest.map Prod.fst).Nodup := by
        simp only [List.map_cons, List.nodup_cons] at hnd
        exact hnd.2
      cases hl : pyLookup args k0 with
      | none => simp only [clean_args_go, hl]; exact ih hnd' hp _
      | some v => simp only [clean_args_go, hl]; exact ih hnd' hp _

/-- Closed instance discharging the hypotheses of
`clean_args_typed_value_preserved` on a correctly-typed float. -/
theorem clean_args_typed_value_preserved_witness :
    pyLookup (clean_args [("a", "number"), ("b", "number")]
      [("a", PyVal.float 12), ("b", PyVal.float 30)]) "a"
      = some (PyVal.float 12) :=
  clean_args_typed_value_preserved [("a", "number"), ("b", "number")]
    [("a", PyVal.float 12), ("b", PyVal.float 30)] "a" "number" (PyVal.float 12)
    (by simp) rfl rfl (Or.inl ⟨Or.inl rfl, 12, rfl⟩)

/-! # C8: the hint merge -/

/-- C8 counterexample: the LLM-synthesized arguments carry the key
`arguments` with the string value "foo"; a planner hint
`\x7b"arguments": \x7b"x": "1"\x7d\x7d` replaces that value outright
(and the flatten pass then removes the key), so an LLM-provided value is
not kept. -/
theorem merge_hints_overwrites_arguments_key :
    pyLookup [("arguments", PyVal.str "foo")] "arguments" = some (PyVal.str "foo")
    ∧ merge_hints [("x", "string")] [("arguments", PyVal.dict [("x", PyVal.str "1")])]
        [("arguments", PyVal.str "foo")] = [("x", PyVal.str "1")]
    ∧ pyLookup (merge_hints [("x", "string")]
        [("arguments", PyVal.dict [("x", PyVal.str "1")])]
        [("arguments", PyVal.str "foo")]) "arguments" = Option.none :=
  ⟨rfl, rfl, rfl⟩

theorem mergeHintsPhase1_preserves (args_hint : PyDict) (key : String) (val : PyVal)
    (hkey : key ≠ "arguments") :
    ∀ args : PyDict, pyLookup args key = some val →
      pyLookup (mergeHintsPhase1 args_hint args) key = some val := by
  unfold mergeHintsPhase1
  induction args_hint with
  | nil => intro args ha; simpa using ha
  | cons hkv rest ih =>
    intro args ha
    rw [List.foldl_cons]
    apply ih
    obtain ⟨hk, hv⟩ := hkv
    cases hv with
    | dict hd =>
      by_cases hka : hk = "arguments"
      · subst hka
        simp only [if_pos rfl]
        cases hex : pyLookup args "arguments" with
        | none => simpa [pyLookup_insert_ne _ _ _ _ (Ne.symm hkey)] using ha
        | some ex =>
          cases ex <;>
            simpa [pyLookup_insert_ne _ _ _ _ (Ne.symm hkey)] using ha
      · simp only [if_neg hka]
        cases hex : pyLookup args hk with
        | none =>
          have hne : hk ≠ key := by
            intro h; subst h; rw [ha] at hex; exact Option.noConfusion hex
          simpa [pyLookup_insert_ne _ _ _ _ hne] using ha
        | some _ => simpa using ha
    | str s =>
      cases hex : pyLookup args hk with
      | none =>
        have hne : hk ≠ key := by
          intro h; subst h; rw [ha] at hex; exact Option.noConfusion hex
        simpa [pyLookup_insert_ne _ _ _ _ hne] using ha
      | some _ => simpa using ha
    | int n =>
      cases hex : pyLookup args hk with
      | none =>
        have hne : hk ≠ key := by
          intro h; subst h; rw [ha] at hex; exact Option.noConfusion hex
        simpa [pyLookup_insert_ne _ _ _ _ hne] using ha
      | some _ => simpa using ha
    | float q =>
      cases hex : pyLookup args hk with
      | none =>
        have hne : hk ≠ key := by
          intro h; subst h; rw [ha] at hex; exact Option.noConfusion hex
        simpa [pyLookup_insert_ne _ _ _ _ hne] using ha
      | some _ => simpa using ha
    | bool b =>
      cases hex : pyLookup args hk with
      | none =>
        have hne : hk ≠ key := by
          intro h; subst h; rw [ha] at hex; exact Option.noConfusion hex
        simpa [pyLookup_insert_ne _ _ _ _ hne] using ha
      | some _ => simpa using ha
    | list xs =>
      cases hex : pyLookup args hk with
      | none =>
        have hne : hk ≠ key := by
          intro h; subst h; rw [ha] at hex; exact Option.noConfusion hex
        simpa [pyLookup_insert_ne _ _ _ _ hne] using ha
      | some _ => simpa using ha
    | none =>
      cases hex : pyLookup args hk with
      | none =>
        have hne : hk ≠ key := by
          intro h; subst h; rw [ha] at hex; exact Option.noConfusion hex
        simpa [pyLookup_insert_ne _ _ _ _ hne] using ha
      | some _ => simpa using ha

theorem fill_missing_foldl_preserves (schemaParams : List (String × String))
    (g : PyDict → String → Option PyVal) (key : String) (val : PyVal) :
    ∀ args : PyDict, pyLookup args key = some val →
      pyLookup (schemaParams.foldl (fun a pkv =>
        match pyLookup a pkv.1 with
        | Option.none =>
          match g a pkv.1 with
          | some v => pyDictInsert a pkv.1 v
          | Option.none => a
        | some _ => a) args) key = some val := by
  induction schemaParams with
  | nil => intro args ha; simpa using ha
  | cons pkv rest ih =>
    intro args ha
    rw [List.foldl_cons]
    apply ih
    cases hex : pyLookup args pkv.1 with
    | none =>
      have hne : pkv.1 ≠ key := by
        intro h; subst h; rw [ha] at hex; exact Option.noConfusion hex
      cases hg : g args pkv.1 with
      | none => simpa using ha
      | some v => simpa [pyLookup_insert_ne _ _ _ _ hne] using ha
    | some _ => simpa using ha

theorem mergeHintsPhase2_preserves (schemaParams : List (String × String))
    (args : PyDict) (key : String) (val : PyVal) (hkey : key ≠ "arguments")
    (ha : pyLookup args key = some val) :
    pyLookup (mergeHintsPhase2 schemaParams args) key = some val := by
  unfold mergeHintsPhase2
  cases hn : pyLookup args "arguments" with
  | none => simpa using ha
  | some nestedVal =>
    cases nestedVal with
    | dict nested =>
      rw [pyLookup_remove_ne _ _ _ (Ne.symm hkey)]
      have := fill_missing_foldl_preserves schemaParams
        (fun _ k => pyLookup nested k) key val args ha
      simpa using this
    | str s => simpa using ha
    | int n => simpa using ha
    | float q => simpa using ha
    | bool b => simpa using ha
    | list xs => simpa using ha
    | none => simpa using ha

theorem phase3_foldl_preserves (schemaParams : List (String × String))
    (args_hint hintNested : PyDict) (key : String) (val : PyVal) :
    ∀ args : PyDict, pyLookup args key = some val →
      pyLookup (schemaParams.foldl (fun a pkv =>
        match pyLookup a pkv.1 with
        | Option.none =>
          match pyLookup args_hint pkv.1 with
          | some v => pyDictInsert a pkv.1 v
          | Option.none =>
            match pyLookup hintNested pkv.1 with
            | some v => pyDictInsert a pkv.1 v
            | Option.none => a
        | some _ => a) args) key = some val := by
  induction schemaParams with
  | nil => intro args ha; simpa using ha
  | cons pkv rest ih =>
    intro args ha
    rw [List.foldl_cons]
    apply ih
    cases hex : pyLookup args pkv.1 with
    | none =>
      have hne : pkv.1 ≠ key := by
        intro h; subst h; rw [ha] at hex; exact Option.noConfusion hex
      cases h1 : pyLookup args_hint pkv.1 with
      | some v => simpa [pyLookup_insert_ne _ _ _ _ hne] using ha
      | none =>
        cases h2 : pyLookup hintNested pkv.1 with
        | some v => simpa [pyLookup_insert_ne _ _ _ _ hne] using ha
        | none => simpa using ha
    | some _ => simpa using ha

theorem mergeHintsPhase3_preserves (schemaParams : List (String × String))
    (args_hint args : PyDict) (key : String) (val : PyVal)
    (ha : pyLookup args key = some val) :
    pyLookup (mergeHintsPhase3 schemaParams args_hint args) key = some val := by
  unfold mergeHintsPhase3
  exact phase3_foldl_preserves schemaParams args_hint _ key val args ha

/-- C8 (amended): the hint merge is fill-only for every top-level key
other than the special `arguments` wrapper: any such key present in the
LLM-synthesized arguments keeps its LLM-provided value through all three
merge passes, and hints are only copied into parameters the LLM omitted.
The `arguments` key itself is the exception: a non-dict LLM value there
is replaced by a dict-valued hint, and a dict value is flattened into the
declared parameters and the wrapper removed. -/
theorem merge_hints_fill_only_nonarguments (schemaParams : List (String × String))
    (args_hint args : PyDict) (key : String) (val : PyVal)
    (hkey : key ≠ "arguments")
    (ha : pyLookup args key = some val) :
    pyLookup (merge_hints schemaParams args_hint args) key = some val := by
  unfold merge_hints
  apply mergeHintsPhase3_preserves
  apply mergeHintsPhase2_preserves _ _ _ _ hkey
  exact mergeHintsPhase1_preserves args_hint key val hkey args ha

/-- Closed instance discharging the hypotheses of
`merge_hints_fill_only_nonarguments`: the LLM value of `text` survives a
conflicting planner hint. -/
theorem merge_hints_fill_only_nonarguments_witness :
    pyLookup (merge_hints [("text", "string"), ("target_language", "string")]
      [("text", PyVal.str "hint value"), ("target_language", PyVal.str "ta")]
      [("text", PyVal.str "llm value")]) "text" = some (PyVal.str "llm value") :=
  merge_hints_fill_only_nonarguments
    [("text", "string"), ("target_language", "string")]
    [("text", PyVal.str "hint value"), ("target_language", PyVal.str "ta")]
    [("text", PyVal.str "llm value")] "text" (PyVal.str "llm value")
    (by decide) rfl

/-! # Scheduler lemmas for C2, C3, C4 -/

theorem pyDictInsert_of_lookup_none {α : Type} (l : List (String × α)) (k : String)
    (v : α) (h : pyLookup l k = Option.none) : pyDictInsert l k v = l ++ [(k, v)] := by
  induction l with
  | nil => simp [pyDictInsert]
  | cons kv rest ih =>
    obtain ⟨k0, v0⟩ := kv
    by_cases h0 : k0 = k
    · simp [pyLookup, h0] at h
    · simp only [pyLookup, if_neg h0] at h
      simp [pyDictInsert, h0, ih h]

theorem pyLookup_append {α : Type} (l1 l2 : List (String × α)) (k : String) :
    pyLookup (l1 ++ l2) k =
      match pyLookup l1 k with
      | some v => some v
      | Option.none => pyLookup l2 k := by
  induction l1 with
  | nil => simp [pyLookup]
  | cons kv rest ih =>
    obtain ⟨k0, v0⟩ := kv
    by_cases h0 : k0 = k <;> simp [pyLookup, h0, ih]

theorem stepsDict_go_eq (steps : List PlanStep) :
    ∀ acc : List (String × PlanStep),
      (∀ s ∈ steps, pyLookup acc s.id = Option.none) →
      (steps.map PlanStep.id).Nodup →
      steps.foldl (fun acc s => pyDictInsert acc s.id s) acc
        = acc ++ steps.map (fun s => (s.id, s)) := by
  induction steps with
  | nil => intro acc _ _; simp
  | cons s rest ih =>
    intro acc hfresh hnd
    rw [List.foldl_cons, pyDictInsert_of_lookup_none _ _ _
      (hfresh s (List.mem_cons_self _ _))]
    simp only [List.map_cons, List.nodup_cons] at hnd
    rw [ih (acc ++ [(s.id, s)]) ?_ hnd.2]
    · simp
    · intro t ht
      rw [pyLookup_append]
      rw [hfresh t (List.mem_cons_of_mem _ ht)]
      have : t.id ≠ s.id := by
        intro hEq
        exact hnd.1 (hEq ▸ List.mem_map_of_mem PlanStep.id ht)
      simp [pyLookup, Ne.symm this]

theorem stepsDict_values_of_nodup (steps : List PlanStep)
    (h : (steps.map PlanStep.id).Nodup) :
    (stepsDict steps).map Prod.snd = steps := by
  unfold stepsDict
  rw [stepsDict_go_eq steps [] (fun s _ => rfl) h]
  simp only [List.nil_append, List.map_map]
  have hcomp : (Prod.snd ∘ fun s : PlanStep => (s.id, s)) = id := rfl
  rw [hcomp, List.map_id]

theorem mem_foldl_insert (execf : PlanStep → String) (l : List PlanStep) :
    ∀ (res : List (String × String)) (p : String × String),
      p ∈ l.foldl (fun acc r => pyDictInsert acc r.id (execf r)) res →
      p ∈ res ∨ ∃ r, r ∈ l ∧ p = (r.id, execf r) := by
  induction l with
  | nil => intro res p hp; simp at hp; exact Or.inl hp
  | cons r0 rest ih =>
    intro res p hp
    rw [List.foldl_cons] at hp
    rcases ih _ p hp with h | ⟨r, hr, hpe⟩
    · rcases mem_pyDictInsert _ _ _ _ h with h' | h'
      · exact Or.inl h'
      · exact Or.inr ⟨r0, List.mem_cons_self _ _, h'⟩
    · exact Or.inr ⟨r, List.mem_cons_of_mem _ hr, hpe⟩

theorem pyLookup_foldl_insert_none (execf : PlanStep → String) (l : List PlanStep)
    (k : String) :
    ∀ res, pyLookup res k = Option.none → (∀ r ∈ l, r.id ≠ k) →
      pyLookup (l.foldl (fun acc r => pyDictInsert acc r.id (execf r)) res) k
        = Option.none := by
  induction l with
  | nil => intro res h _; simpa using h
  | cons r0 rest ih =>
    intro res h hne
    rw [List.foldl_cons]
    apply ih
    · rw [pyLookup_insert_ne _ _ _ _ (hne r0 (List.mem_cons_self _ _))]
      exact h
    · exact fun r hr => hne r (List.mem_cons_of_mem _ hr)

theorem schedLoop_pending_dec (pending : List PlanStep)
    (results : List (String × String))
    (h : ¬(pending.filter (isReady results)).isEmpty = true) :
    (pending.filter (fun s =>
      !((pending.filter (isReady results)).any (fun r => r.id == s.id)))).length
      < pending.length := by
  have hmem : ∃ r0, r0 ∈ pending.filter (isReady results) := by
    cases hx : pending.filter (isReady results) with
    | nil => rw [hx] at h; simp at h
    | cons a t => exact ⟨a, by simp [hx]⟩
  obtain ⟨r0, hr0⟩ := hmem
  have hrp : r0 ∈ pending := (List.mem_filter.mp hr0).1
  by_contra hle
  push_neg at hle
  have hsub : ∀ x ∈ pending, x ∈ pending.filter (fun s =>
      !((pending.filter (isReady results)).any (fun r => r.id == s.id))) := by
    intro x hx
    have := (List.filter_sublist pending).eq_of_length_le hle
    rw [this]
    exact hx
  have hr0' := hsub r0 hrp
  have hfa := (List.mem_filter.mp hr0').2
  simp only [Bool.not_eq_true', List.any_eq_false] at hfa
  have := hfa r0 hr0
  simp at this

theorem schedLoop_entries (execf : PlanStep → String) (U : List PlanStep) :
    ∀ (n : Nat) (pending : List PlanStep) (results : List (String × String)),
      pending.length ≤ n →
      (∀ s ∈ pending, s ∈ U) →
      (∀ p ∈ results, ∃ s, s ∈ U ∧ p = (s.id, execf s)) →
      ∀ p ∈ schedLoop execf pending results, ∃ s, s ∈ U ∧ p = (s.id, execf s) := by
  intro n
  induction n with
  | zero =>
    intro pending results hlen hp hr p hpm
    have hnil : pending = [] := List.eq_nil_of_length_eq_zero (Nat.le_zero.mp hlen)
    subst hnil
    rw [schedLoop] at hpm
    simp at hpm
    exact hr p hpm
  | succ n ih =>
    intro pending results hlen hp hr p hpm
    rw [schedLoop] at hpm
    by_cases hrd : (pending.filter (isReady results)).isEmpty
    · rw [dif_pos hrd] at hpm
      exact hr p hpm
    · rw [dif_neg hrd] at hpm
      have hlen' : (pending.filter (fun s =>
          !((pending.filter (isReady results)).any (fun r => r.id == s.id)))).length ≤ n := by
        have := schedLoop_pending_dec pending results hrd
        omega
      refine ih _ _ hlen' ?_ ?_ p hpm
      · intro s hs
        exact hp s (List.mem_filter.mp hs).1
      · intro p' hp'
        rcases mem_foldl_insert execf _ results p' hp' with h | ⟨r, hrm, hpe⟩
        · exact hr p' h
        · exact ⟨r, hp r (List.mem_filter.mp hrm).1, hpe⟩

theorem schedLoop_bad_step (execf : PlanStep → String) (U : List PlanStep)
    (s : PlanStep) (d : String)
    (hU : (U.map PlanStep.id).Nodup) (hsU : s ∈ U) (hd : d ∈ s.depends_on)
    (hmiss : ∀ t ∈ U, t.id ≠ d) :
    ∀ (n : Nat) (pending : List PlanStep) (results : List (String × String)),
      pending.length ≤ n →
      (∀ t ∈ pending, t ∈ U) →
      (∀ p ∈ results, ∃ t, t ∈ U ∧ p = (t.id, execf t)) →
      pyLookup results s.id = Option.none →
      pyLookup (schedLoop execf pending results) s.id = Option.none := by
  intro n
  induction n with
  | zero =>
    intro pending results hlen hp hr hno
    have hnil : pending = [] := List.eq_nil_of_length_eq_zero (Nat.le_zero.mp hlen)
    subst hnil
    rw [schedLoop]
    simpa using hno
  | succ n ih =>
    intro pending results hlen hp hr hno
    have hdkey : hasKey results d = false := by
      cases hk : pyLookup results d with
      | none => simp [hasKey, hk]
      | some v =>
        obtain ⟨t, htU, hte⟩ := hr (d, v) (pyLookup_mem _ _ _ hk)
        exact absurd (congrArg Prod.fst hte).symm (hmiss t htU)
    have hsNotReady : isReady results s = false := by
      cases hrs : isReady results s with
      | false => rfl
      | true =>
        have := (List.all_eq_true.mp hrs) d hd
        rw [hdkey] at this
        exact Bool.noConfusion this
    have hkeyne : ∀ r ∈ pending.filter (isReady results), r.id ≠ s.id := by
      intro r hrm hEq
      have hrU := hp r (List.mem_filter.mp hrm).1
      have hready := (List.mem_filter.mp hrm).2
      have hrs : r = s := List.inj_on_of_nodup_map hU hrU hsU hEq
      rw [hrs, hsNotReady] at hready
      exact Bool.noConfusion hready
    rw [schedLoop]
    by_cases hrd : (pending.filter (isReady results)).isEmpty
    · rw [dif_pos hrd]
      exact hno
    · rw [dif_neg hrd]
      have hlen' : (pending.filter (fun s =>
          !((pending.filter (isReady results)).any (fun r => r.id == s.id)))).length ≤ n := by
        have := schedLoop_pending_dec pending results hrd
        omega
      refine ih _ _ hlen' ?_ ?_ ?_
      · intro t ht
        exact hp t (List.mem_filter.mp ht).1
      · intro p' hp'
        rcases mem_foldl_insert execf _ results p' hp' with h | ⟨r, hrm, hpe⟩
        · exact hr p' h
        · exact ⟨r, hp r (List.mem_filter.mp hrm).1, hpe⟩
      · exact pyLookup_foldl_insert_none execf _ _ results hno hkeyne

theorem results_lookup_value (execf : PlanStep → String) (U : List PlanStep)
    (hU : (U.map PlanStep.id).Nodup) (t : PlanStep) (htU : t ∈ U)
    (results : List (String × String))
    (hr : ∀ p ∈ results, ∃ u, u ∈ U ∧ p = (u.id, execf u)) :
    pyLookup results t.id = Option.none
    ∨ pyLookup results t.id = some (execf t) := by
  induction results with
  | nil => exact Or.inl rfl
  | cons p rest ih =>
    obtain ⟨u, huU, hpe⟩ := hr p (List.mem_cons_self _ _)
    subst hpe
    by_cases h : u.id = t.id
    · have : u = t := List.inj_on_of_nodup_map hU huU htU h
      subst this
      right
      simp [pyLookup]
    · simp only [pyLookup, if_neg h]
      exact ih (fun p hp => hr p (List.mem_cons_of_mem _ hp))

theorem filterMap_lookup_eq (execf : PlanStep → String)
    (results : List (String × String)) :
    ∀ l : List PlanStep,
      (∀ t ∈ l, pyLookup results t.id = Option.none
        ∨ pyLookup results t.id = some (execf t)) →
      l.filterMap (fun s => pyLookup results s.id)
        = (l.filter (fun s => hasKey results s.id)).map execf := by
  intro l
  induction l with
  | nil => simp
  | cons t rest ih =>
    intro h
    have hrest := fun u hu => h u (List.mem_cons_of_mem _ hu)
    rcases h t (List.mem_cons_self _ _) with ht | ht <;>
      simp [List.filterMap_cons, List.filter_cons, ht, hasKey, ih hrest]

/-! # C2: unresolvable dependencies stall silently -/

/-- C2: in any plan (with the data model's unique step ids), a step whose
`depends_on` contains an id that is not the id of any step of the plan
never has a result recorded — its tool is never invoked since only
launched steps write to the results map — `orchestrate` still returns
normally, and the step contributes nothing to the summary, which equals
the aggregation over the remaining steps only. -/
theorem unresolvable_dependency_step_never_executes (execf : PlanStep → String)
    (plan : Plan) (s : PlanStep) (d : String)
    (hnd : (plan.steps.map PlanStep.id).Nodup)
    (hs : s ∈ plan.steps) (hd : d ∈ s.depends_on)
    (hmiss : ∀ t ∈ plan.steps, t.id ≠ d) :
    pyLookup (orchestrate execf plan).1 s.id = Option.none
    ∧ (orchestrate execf plan).2 = String.intercalate "\n\n"
        ((plan.steps.filter (fun t => t.id != s.id)).filterMap
          (fun t => pyLookup (orchestrate execf plan).1 t.id)) := by
  have hpend : (stepsDict plan.steps).map Prod.snd = plan.steps :=
    stepsDict_values_of_nodup plan.steps hnd
  have hres1 : (orchestrate execf plan).1 = schedLoop execf plan.steps [] := by
    simp only [orchestrate]
    rw [hpend]
  have hnone : pyLookup (schedLoop execf plan.steps []) s.id = Option.none :=
    schedLoop_bad_step execf plan.steps s d hnd hs hd hmiss
      plan.steps.length plan.steps [] le_rfl (fun t ht => ht) (by simp [pyLookup]) rfl
  constructor
  · rw [hres1]; exact hnone
  · have hdrop : ∀ l : List PlanStep,
        l.filterMap (fun t => pyLookup (orchestrate execf plan).1 t.id)
          = (l.filter (fun t => t.id != s.id)).filterMap
            (fun t => pyLookup (orchestrate execf plan).1 t.id) := by
      intro l
      induction l with
      | nil => simp
      | cons t rest ih =>
        by_cases ht : t.id = s.id
        · have hnone' : pyLookup (orchestrate execf plan).1 s.id = Option.none := by
            rw [hres1]; exact hnone
          simp [List.filterMap_cons, List.filter_cons, ht, hnone', ih]
        · simp [List.filterMap_cons, List.filter_cons, ht, ih]
    have hsum : (orchestrate execf plan).2
        = String.intercalate "\n\n"
          (plan.steps.filterMap (fun t => pyLookup (orchestrate execf plan).1 t.id)) := by
      simp only [orchestrate]
    rw [hsum, hdrop plan.steps]

/-- A two-step plan whose second step depends on the nonexistent id
`"missing"`. -/
def stalledPlan : Plan :=
  Plan.mk [PlanStep.mk "step_1" "add" "arithmetic.add" [] [],
    PlanStep.mk "step_2" "blocked" "arithmetic.add" [] ["missing"]]

def stalledStep : PlanStep := PlanStep.mk "step_2" "blocked" "arithmetic.add" [] ["missing"]

/-- Closed instance of `unresolvable_dependency_step_never_executes` on
`stalledPlan`. -/
theorem unresolvable_dependency_witness :
    ("missing" ∈ stalledStep.depends_on)
    ∧ (pyLookup (orchestrate (fun st => st.id) stalledPlan).1 stalledStep.id = Option.none
      ∧ (orchestrate (fun st => st.id) stalledPlan).2
        = String.intercalate "\n\n"
          ((stalledPlan.steps.filter (fun t => t.id != stalledStep.id)).filterMap
            (fun t => pyLookup (orchestrate (fun st => st.id) stalledPlan).1 t.id))) :=
  ⟨List.mem_cons_self _ _,
    unresolvable_dependency_step_never_executes (fun st => st.id) stalledPlan
      stalledStep "missing" (by simp [stalledPlan])
      (List.mem_cons_of_mem _ (List.mem_cons_self _ _))
      (List.mem_cons_self _ _) (by simp [stalledPlan])⟩

/-! # C3: summary aggregation order -/

/-- C3: for every plan (with the data model's unique step ids), the
summary returned by `orchestrate` is the blank-line-separated
concatenation, in original plan-step order, of the recorded results of
exactly those steps that executed (the steps having an entry in the
results map); steps that never became ready contribute nothing, and every
results entry is the recorded result of some plan step. -/
theorem orchestrate_summary_plan_order (execf : PlanStep → String) (plan : Plan)
    (hnd : (plan.steps.map PlanStep.id).Nodup) :
    (orchestrate execf plan).2 = String.intercalate "\n\n"
      ((plan.steps.filter (fun s => hasKey (orchestrate execf plan).1 s.id)).map execf)
    ∧ ∀ p ∈ (orchestrate execf plan).1, ∃ s, s ∈ plan.steps ∧ p = (s.id, execf s) := by
  have hpend : (stepsDict plan.steps).map Prod.snd = plan.steps :=
    stepsDict_values_of_nodup plan.steps hnd
  have hres1 : (orchestrate execf plan).1 = schedLoop execf plan.steps [] := by
    simp only [orchestrate]
    rw [hpend]
  have hent : ∀ p ∈ schedLoop execf plan.steps [],
      ∃ s, s ∈ plan.steps ∧ p = (s.id, execf s) :=
    schedLoop_entries execf plan.steps plan.steps.length plan.steps [] le_rfl
      (fun s hs => hs) (by simp [pyLookup])
  constructor
  · have hsum : (orchestrate execf plan).2
        = String.intercalate "\n\n"
          (plan.steps.filterMap (fun t => pyLookup (schedLoop execf plan.steps []) t.id)) := by
      simp only [orchestrate]
      rw [hpend]
    rw [hsum]
    rw [filterMap_lookup_eq execf (schedLoop execf plan.steps []) plan.steps
      (fun t ht => results_lookup_value execf plan.steps hnd t ht _ hent)]
    rw [hres1]
  · intro p hp
    rw [hres1] at hp
    exact hent p hp

/-- A two-step plan whose first step depends on its second, so completion
order is the reverse of plan order. -/
def reversedPlan : Plan :=
  Plan.mk [PlanStep.mk "step_1" "translate it" "translate.translate_from_english" [] ["step_2"],
    PlanStep.mk "step_2" "integrate" "integration.integrate_definite" [] []]

/-- Closed instance of `orchestrate_summary_plan_order` on
`reversedPlan`. -/
theorem orchestrate_summary_plan_order_witness :
    ((reversedPlan.steps.map PlanStep.id).Nodup)
    ∧ ((orchestrate (fun st => st.intent) reversedPlan).2
        = String.intercalate "\n\n"
          ((reversedPlan.steps.filter
            (fun s => hasKey (orchestrate (fun st => st.intent) reversedPlan).1 s.id)).map
            (fun st => st.intent))
      ∧ ∀ p ∈ (orchestrate (fun st => st.intent) reversedPlan).1,
          ∃ s, s ∈ reversedPlan.steps ∧ p = (s.id, (fun st => st.intent) s)) :=
  ⟨by simp [reversedPlan],
    orchestrate_summary_plan_order (fun st => st.intent) reversedPlan
      (by simp [reversedPlan])⟩

/-! # C4: retry exhaustion and sibling independence -/

theorem retry_go_all_fail (invoke : Nat → Except String String) (errs : Nat → String) :
    ∀ (r a : Nat) (lastE : String),
      (∀ j, j < r → invoke (a + j) = Except.error (errs (a + j))) →
      retry_go invoke lastE a r
        = (a + r, "ERROR: " ++ (if r = 0 then lastE else errs (a + r - 1))) := by
  intro r
  induction r with
  | zero => intro a lastE _; simp [retry_go]
  | succ n ih =>
    intro a lastE hfail
    have h0 : invoke a = Except.error (errs a) := by
      have := hfail 0 (Nat.succ_pos n)
      simpa using this
    rw [retry_go, h0]
    show retry_go invoke (errs a) (a + 1) n = _
    rw [ih (a + 1) (errs a) (fun j hj => by
      have := hfail (j + 1) (by omega)
      rwa [show a + (j + 1) = a + 1 + j by omega] at this)]
    cases n with
    | zero => simp
    | succ k =>
      have h1 : a + 1 + (k + 1) - 1 = a + (k + 1 + 1) - 1 := by omega
      have h2 : a + 1 + (k + 1) = a + (k + 1 + 1) := by omega
      simp [h1, h2]

theorem run_step_invoke_all_fail (invoke : Nat → Except String String)
    (errs : Nat → String) (m : Nat)
    (hfail : ∀ i, i ≤ m → invoke i = Except.error (errs i)) :
    run_step_invoke invoke m = (m + 1, "ERROR: " ++ errs m) := by
  unfold run_step_invoke
  rw [retry_go_all_fail invoke errs (m + 1) 0 "None"
    (fun j hj => by simpa using hfail j (by omega))]
  simp

theorem run_step_invoke_first_ok (invoke : Nat → Except String String)
    (v : String) (m : Nat) (h : invoke 0 = Except.ok v) :
    run_step_invoke invoke m = (1, v) := by
  unfold run_step_invoke
  rw [retry_go, h]

/-- C4: when every invocation attempt of a step's tool raises (for
example always times out), the retry loop makes exactly
`max_retries + 1` attempts and records `"ERROR: " ++ <last exception>` as
that step's result — and only that step's: an independent sibling in the
same ready batch whose invocation succeeds still completes, its result is
recorded, and it appears in the summary after the failed step's error
string. -/
theorem failed_step_error_sibling_survives
    (m : Nat) (invokes : PlanStep → Nat → Except String String)
    (errs : Nat → String) (outB : String) (sA sB : PlanStep)
    (hA : sA.depends_on = []) (hB : sB.depends_on = [])
    (hid : sA.id ≠ sB.id)
    (hfail : ∀ i, i ≤ m → invokes sA i = Except.error (errs i))
    (hok : invokes sB 0 = Except.ok outB) :
    (run_step_invoke (invokes sA) m).1 = m + 1
    ∧ (run_step_invoke (invokes sA) m).2 = "ERROR: " ++ errs m
    ∧ (orchestrate (fun st => (run_step_invoke (invokes st) m).2) (Plan.mk [sA, sB])).1
      = [(sA.id, "ERROR: " ++ errs m), (sB.id, outB)]
    ∧ (orchestrate (fun st => (run_step_invoke (invokes st) m).2) (Plan.mk [sA, sB])).2
      = String.intercalate "\n\n" ["ERROR: " ++ errs m, outB] := by
  have hfa : run_step_invoke (invokes sA) m = (m + 1, "ERROR: " ++ errs m) :=
    run_step_invoke_all_fail (invokes sA) errs m hfail
  have hfb : run_step_invoke (invokes sB) m = (1, outB) :=
    run_step_invoke_first_ok (invokes sB) outB m hok
  refine ⟨by rw [hfa], by rw [hfa], ?_⟩
  have hsd : stepsDict [sA, sB] = [(sA.id, sA), (sB.id, sB)] := by
    simp [stepsDict, pyDictInsert, hid]
  have hready0 : ([sA, sB].filter (isReady [])) = [sA, sB] := by
    simp [isReady, hA, hB]
  have hres : schedLoop (fun st => (run_step_invoke (invokes st) m).2) [sA, sB] []
      = [(sA.id, "ERROR: " ++ errs m), (sB.id, outB)] := by
    rw [schedLoop]
    rw [dif_neg (by rw [hready0]; simp)]
    rw [hready0]
    have hpend2 : ([sA, sB].filter (fun s =>
        !(([sA, sB] : List PlanStep).any (fun r => r.id == s.id)))) = [] := by
      simp
    have hres2 : (([sA, sB] : List PlanStep).foldl
        (fun acc r => pyDictInsert acc r.id ((run_step_invoke (invokes r) m).2)) [])
        = [(sA.id, "ERROR: " ++ errs m), (sB.id, outB)] := by
      simp only [List.foldl_cons, List.foldl_nil]
      rw [show pyDictInsert ([] : List (String × String)) sA.id
          ((run_step_invoke (invokes sA) m).2) = [(sA.id, (run_step_invoke (invokes sA) m).2)]
        from rfl]
      simp only [pyDictInsert, if_neg hid]
      rw [hfa, hfb]
    rw [hpend2, hres2]
    rw [schedLoop]
    simp
  have hresult : (orchestrate (fun st => (run_step_invoke (invokes st) m).2)
      (Plan.mk [sA, sB])).1 = [(sA.id, "ERROR: " ++ errs m), (sB.id, outB)] := by
    simp only [orchestrate, hsd, List.map_cons, List.map_nil]
    exact hres
  refine ⟨hresult, ?_⟩
  simp only [orchestrate, hsd, List.map_cons, List.map_nil]
  rw [hres]
  simp [List.filterMap_cons, pyLookup, hid, Ne.symm hid]

/-- Closed instance of `failed_step_error_sibling_survives`: one retry,
a sibling returning "42.0", a timeout on every attempt of the first
step. -/
theorem failed_step_error_sibling_survives_witness :
    (run_step_invoke (fun _ => Except.error "TimeoutError") 1).1 = 1 + 1
    ∧ (run_step_invoke (fun _ => Except.error "TimeoutError") 1).2
      = "ERROR: " ++ "TimeoutError"
    ∧ (orchestrate (fun st => (run_step_invoke
        ((fun st0 => if st0.id = "step_1"
          then (fun _ => Except.error "TimeoutError")
          else (fun _ => Except.ok "42.0")) st) 1).2)
        (Plan.mk [PlanStep.mk "step_1" "a" "x.create_post" [] [],
          PlanStep.mk "step_2" "b" "arithmetic.add" [] []])).1
      = [("step_1", "ERROR: " ++ "TimeoutError"), ("step_2", "42.0")]
    ∧ (orchestrate (fun st => (run_step_invoke
        ((fun st0 => if st0.id = "step_1"
          then (fun _ => Except.error "TimeoutError")
          else (fun _ => Except.ok "42.0")) st) 1).2)
        (Plan.mk [PlanStep.mk "step_1" "a" "x.create_post" [] [],
          PlanStep.mk "step_2" "b" "arithmetic.add" [] []])).2
      = String.intercalate "\n\n" ["ERROR: " ++ "TimeoutError", "42.0"] :=
  failed_step_error_sibling_survives 1
    (fun st0 => if st0.id = "step_1"
      then (fun _ => Except.error "TimeoutError")
      else (fun _ => Except.ok "42.0"))
    (fun _ => "TimeoutError") "42.0"
    (PlanStep.mk "step_1" "a" "x.create_post" [] [])
    (PlanStep.mk "step_2" "b" "arithmetic.add" [] [])
    rfl rfl (by decide) (fun i _ => rfl) rfl

/-! # C6: the heuristic planner never returns an empty plan on a
non-empty graph -/

theorem priorityAddCampaign_nonempty (q : String) (o : RegexOracle)
    (tools : List (String × ToolSpec)) (p : Plan)
    (h : priorityAddCampaign q o tools = some p) : p.steps ≠ [] := by
  unfold priorityAddCampaign at h
  split at h
  · split at h
    · split at h
      · have := Option.some.inj h
        rw [← this]
        simp [appendStep]
      · exact Option.noConfusion h
    · exact Option.noConfusion h
  · exact Option.noConfusion h

theorem priorityCreateCustomer_nonempty (mq q : String) (o : RegexOracle)
    (tools : List (String × ToolSpec)) (p : Plan)
    (h : priorityCreateCustomer mq q o tools = some p) : p.steps ≠ [] := by
  unfold priorityCreateCustomer at h
  split at h
  · split at h
    · exact Option.noConfusion h
    · split at h
      · have := Option.some.inj h
        rw [← this]
        simp [appendStep]
      · exact Option.noConfusion h
  · exact Option.noConfusion h

theorem simple_planner_rest_nonempty (mq q : String) (o : RegexOracle)
    (graph : CapabilityGraph) (h : graph.tools ≠ []) :
    (simple_planner_rest mq q o graph).steps ≠ [] := by
  unfold simple_planner_rest
  by_cases hc : (planner_phases mq q o graph.tools).isEmpty
  · rw [if_pos hc]
    cases htl : graph.tools with
    | nil => exact absurd htl h
    | cons kv rest => simp
  · rw [if_neg hc]
    intro hnil
    rw [show (Plan.mk (planner_phases mq q o graph.tools)).steps
        = planner_phases mq q o graph.tools from rfl] at hnil
    rw [hnil] at hc
    exact hc rfl

theorem google_ads_priority_nonempty (mq q : String) (o : RegexOracle)
    (tools : List (String × ToolSpec)) (p : Plan)
    (h : google_ads_priority mq q o tools = some p) : p.steps ≠ [] := by
  unfold google_ads_priority at h
  split at h
  · split at h
    next p' hp' =>
      have := Option.some.inj h
      subst this
      exact priorityAddCampaign_nonempty q o tools p' hp'
    next hp' =>
      exact priorityCreateCustomer_nonempty mq q o tools p h
  · exact Option.noConfusion h

theorem priorityAddCampaign_nil (q : String) (o : RegexOracle) :
    priorityAddCampaign q o [] = Option.none := by
  cases hc : o.customer_for <;>
    simp [priorityAddCampaign, hc, hasKey, pyLookup]

theorem priorityCreateCustomer_nil (mq q : String) (o : RegexOracle) :
    priorityCreateCustomer mq q o [] = Option.none := by
  simp [priorityCreateCustomer, hasKey, pyLookup]

theorem google_ads_priority_nil (mq q : String) (o : RegexOracle) :
    google_ads_priority mq q o [] = Option.none := by
  simp [google_ads_priority, priorityAddCampaign_nil, priorityCreateCustomer_nil]

theorem add_first_match_nil (mq q : String) (chosen : List PlanStep)
    (hints prefer : List String) (args_hint : PyDict) :
    add_first_match mq q [] chosen hints prefer args_hint = chosen := rfl

theorem phase_math_nil (mq q : String) (o : RegexOracle) (chosen : List PlanStep) :
    phase_math mq q o [] chosen = chosen := by
  simp [phase_math, add_first_match, List.find?]

theorem phase_x_create_post_nil (mq q : String) (o : RegexOracle)
    (chosen : List PlanStep) : phase_x_create_post mq q o [] chosen = chosen := by
  simp [phase_x_create_post, hasKey, pyLookup]

theorem phase_x_query_nil (mq q : String) (o : RegexOracle)
    (chosen : List PlanStep) : phase_x_query mq q o [] chosen = chosen := by
  unfold phase_x_query
  cases o.at_username <;> cases o.kw_username <;> simp [hasKey, pyLookup]

theorem phase_tiktok_nil (mq q : String) (chosen : List PlanStep) :
    phase_tiktok mq q [] chosen = chosen := by
  simp [phase_tiktok, add_first_match, List.find?]

theorem phase_youtube_nil (mq q : String) (o : RegexOracle)
    (chosen : List PlanStep) : phase_youtube mq q o [] chosen = chosen := by
  unfold phase_youtube
  cases o.video_id <;> cases o.file_path <;> cases o.upload_title <;>
    simp [hasKey, pyLookup]

theorem phase_google_ads_nil (mq q : String) (o : RegexOracle)
    (chosen : List PlanStep) : phase_google_ads mq q o [] chosen = chosen := by
  unfold phase_google_ads
  cases o.customer_for <;> simp [hasKey, pyLookup]

theorem planner_phases_nil (mq q : String) (o : RegexOracle) :
    planner_phases mq q o [] = [] := by
  unfold planner_phases
  rw [phase_math_nil, phase_x_create_post_nil, phase_x_query_nil,
    phase_tiktok_nil, phase_youtube_nil, phase_google_ads_nil]

/-- C6: `simple_planner` returns a plan with at least one step for every
question, every behaviour of the regex library, and every capability
graph with a non-empty tools index (the final fallback picks the first
graph tool when no heuristic fired, and every early return carries the
step it just appended); it returns zero steps exactly when the graph has
no tools. -/
theorem simple_planner_nonempty_iff_tools (mq : String) (o : RegexOracle)
    (graph : CapabilityGraph) :
    (graph.tools ≠ [] → (simple_planner mq o graph).steps ≠ [])
    ∧ (graph.tools = [] → (simple_planner mq o graph).steps = []) := by
  constructor
  · intro htools
    unfold simple_planner
    cases hpr : google_ads_priority mq (pyLower mq) o graph.tools with
    | some p =>
      exact google_ads_priority_nonempty mq (pyLower mq) o graph.tools p hpr
    | none =>
      exact simple_planner_rest_nonempty mq (pyLower mq) o graph htools
  · intro htools
    unfold simple_planner
    rw [htools, google_ads_priority_nil]
    show (simple_planner_rest mq (pyLower mq) o graph).steps = []
    unfold simple_planner_rest
    rw [htools, planner_phases_nil]
    rfl

/-- The one-tool capability graph of end-to-end scenario 1. -/
def addOnlyGraph : CapabilityGraph :=
  CapabilityGraph.mk []
    [("arithmetic.add", ToolSpec.mk "arithmetic" "add"
      (ToolSchema.mk "add" Option.none [("a", "number"), ("b", "number")]))]

/-- A regex oracle recording that no pattern matched. -/
def emptyOracle : RegexOracle :=
  RegexOracle.mk Option.none false Option.none Option.none Option.none
    Option.none "" Option.none Option.none Option.none Option.none
    Option.none Option.none Option.none Option.none Option.none Option.none

/-- Closed instance of `simple_planner_nonempty_iff_tools` on the
one-tool graph. -/
theorem simple_planner_nonempty_iff_tools_witness :
    addOnlyGraph.tools ≠ []
    ∧ (simple_planner "what is 12 plus 30" emptyOracle addOnlyGraph).steps ≠ [] :=
  ⟨by simp [addOnlyGraph],
    (simple_planner_nonempty_iff_tools "what is 12 plus 30" emptyOracle
      addOnlyGraph).1 (by simp [addOnlyGraph])⟩

end MathMcp
